import Mathlib

/-!
Verification development for the tdewolff/font library (SFNT/WOFF2/CFF font
parsing, subsetting and merging).  Go source functions are shallowly embedded
as executable Lean definitions: byte buffers become `List Nat` (each entry a
byte value), machine integers become `Nat`/`Int` with explicit reductions
modulo powers of two where Go overflow semantics matter, and fallible code
returns `Option`/`Except`.  Each claim about the library is then settled by a
theorem about these definitions.
-/

namespace Font

set_option maxHeartbeats 2000000
set_option maxRecDepth 4000

/-! ## Machine-integer helpers -/
/-- Reduction of a value to Go `uint32` range. -/
def u32 (v : Nat) : Nat := v % 4294967296

/-- Reduction of a value to Go `uint16` range. -/
def u16 (v : Nat) : Nat := v % 65536

/-- Go `uint16` subtraction with wrap-around. -/
def u16sub (a b : Nat) : Nat := (a % 65536 + 65536 - b % 65536) % 65536

/-- Go `uint32` subtraction with wrap-around. -/
def u32sub (a b : Nat) : Nat := (a % 4294967296 + 4294967296 - b % 4294967296) % 4294967296

/-- Big-endian 32-bit word assembled from four bytes (each taken mod 256,
matching `binary.BigEndian.Uint32`). -/
def be32 (b0 b1 b2 b3 : Nat) : Nat :=
  (b0 % 256) * 16777216 + (b1 % 256) * 65536 + (b2 % 256) * 256 + b3 % 256

/-- Big-endian byte encoding of a 32-bit value, as written by
`binary.BigEndian.PutUint32`. -/
def be32Bytes (v : Nat) : List Nat :=
  [v / 16777216 % 256, v / 65536 % 256, v / 256 % 256, v % 256]

/-- Big-endian byte encoding of a 16-bit value, as written by
`binary.BigEndian.PutUint16` / `WriteUint16`. -/
def be16Bytes (v : Nat) : List Nat :=
  [v / 256 % 256, v % 256]

/-! ## Checksum (`calcChecksum` in the source)

`calcChecksum` sums the big-endian 32-bit words of a buffer with `uint32`
wrap-around.  The Go function panics unless the length is a multiple of four;
it is only ever called on buffers padded to four bytes, and the theorems below
carry that length condition where it matters. -/
/-- The sequence of big-endian 32-bit words of a byte buffer (a trailing
incomplete group, which Go rejects by panic, is ignored). -/
def toWords : List Nat → List Nat
  | b0 :: b1 :: b2 :: b3 :: rest => be32 b0 b1 b2 b3 :: toWords rest
  | _ => []

/-- Embedding of `calcChecksum` (part_000 lines 17-26): the `uint32` sum of
the big-endian 32-bit words of the buffer. -/
def calcChecksum (b : List Nat) : Nat :=
  (toWords b).foldl (fun sum w => (sum + w) % 4294967296) 0

/-! ## Claim C9: hmtx compaction loop

Both `Subset` (sfnt_subset.go lines 114-120) and `Merge` (sfnt_merge.go lines
374-380) compute `numberOfHMetrics` with the identical loop

    numberOfHMetrics := uint16(len(advances))
    for 1 < numberOfHMetrics {
        if advances[numberOfHMetrics-1] != advances[numberOfHMetrics-2] { break }
        numberOfHMetrics--
    }

and then emit that many (advance, lsb) pairs followed by trailing lsbs. -/
/-- The compaction loop body: given the current candidate `numberOfHMetrics`,
decrement while the last two advances are equal. -/
def hmtxCompactLoop (advances : List Nat) : Nat → Nat
  | 0 => 0
  | 1 => 1
  | m + 2 => if advances.getD (m + 1) 0 ≠ advances.getD m 0 then m + 2
             else hmtxCompactLoop advances (m + 1)

/-- Embedding of the `numberOfHMetrics` computation shared by `Subset` and
`Merge`: start from the number of glyphs and compact from the tail. -/
def compactNumberOfHMetrics (advances : List Nat) : Nat :=
  hmtxCompactLoop advances advances.length

/-! ## Claim C8: required tables in `parseSFNT` (non-embedded variant)

Embedding of sfnt.go lines 287-313: the required-table check performed by
`parseSFNT` when `embedded` is false.  The outcome is either no error, a
missing-table error (Go: `fmt.Errorf("%s: missing table", tag)`), or the
distinct error `"CFF2: CFF table already exists"` when both CFF tables are
present. -/
/-- Error outcomes of the required-table check. -/
inductive TableCheckError where
  | missingTable (tag : String)
  | cffAlreadyExists
deriving DecidableEq, Repr

/-- The common required tags for the non-embedded variant
(sfnt.go line 296; the source comments that OS/2 is not required). -/
def requiredTablesCommon : List String :=
  ["cmap", "head", "hhea", "hmtx", "maxp", "name", "post"]

/-- First required tag absent from `tags`, reported as a missing-table error
(the loop at sfnt.go lines 309-313). -/
def findMissingTable (required tags : List String) : Option TableCheckError :=
  match required.find? (fun t => decide (t ∉ tags)) with
  | some t => some (.missingTable t)
  | none => none

/-- Embedding of the non-embedded required-table check of `parseSFNT`
(sfnt.go lines 287-313).  `tags` is the set of table tags present in the
font's directory. -/
def parseSFNTCheckTables (isTrueType isCFF : Bool) (tags : List String) :
    Option TableCheckError :=
  if isTrueType then
    findMissingTable (requiredTablesCommon ++ ["glyf", "loca"]) tags
  else if isCFF then
    if "CFF " ∉ tags ∧ "CFF2" ∉ tags then some (.missingTable "CFF")
    else if "CFF " ∈ tags ∧ "CFF2" ∈ tags then some .cffAlreadyExists
    else findMissingTable requiredTablesCommon tags
  else
    findMissingTable requiredTablesCommon tags

/-! ## Claim C7: kern subtable merging

Embedding of the kern-table update in `Merge` (sfnt_merge.go lines 231-254).
For each subtable of the secondary font a new pair array is allocated with
`make([]kernPair, len(subtable.Pairs))` (zero-valued pairs) and filled except
where the skip condition `pair.Key&0x0F == 0 || pair.Key&0xF0 == 0` holds. -/
/-- A kern pair: `Key` is the `uint32` `(left << 16) | right`, `Value` the
`int16` adjustment. -/
structure KernPair where
  key : Nat
  value : Int
deriving DecidableEq, Repr

/-- Embedding of the per-subtable pair rewrite inside `Merge`: the offset
`uint32(origNumGlyphs-1)<<16 + uint32(origNumGlyphs-1)` is added to the key of
every pair not skipped; a skipped pair leaves the zero value of the
preallocated array in place. -/
def mergeKernPairs (origNumGlyphs : Nat) (pairs : List KernPair) : List KernPair :=
  let offset := u32 ((u16sub origNumGlyphs 1) * 65536 + u16sub origNumGlyphs 1)
  pairs.map fun pair =>
    if pair.key % 16 = 0 ∨ pair.key / 16 % 16 = 0 then ⟨0, 0⟩
    else ⟨u32 (offset + pair.key), pair.value⟩

/-! ## Claim C2: `Subset` glyph-id preparation

Embedding of the opening of `Subset` (sfnt_subset.go lines 31-58): the glyph
map is built from the caller's list as given, composite dependencies of the
first `origLen` entries are appended when absent, and the total is bounded by
65535.  `Dependencies` (the glyf composite walk) is passed in as a function
parameter; `deps g` returns the dependency list of glyph `g`, whose head is
`g` itself (the code iterates `deps[1:]`). -/
/-- Inner accumulation over one glyph's dependency list (sfnt_subset.go lines
48-53): append each dependency not already retained. -/
def subsetAddDeps (ds : List Nat) (acc : List Nat) : List Nat :=
  ds.foldl (fun a d => if d ∈ a then a else a ++ [d]) acc

/-- Outer loop over the original glyph ids (sfnt_subset.go lines 40-54). -/
def subsetLoop (deps : Nat → Except String (List Nat)) :
    List Nat → List Nat → Except String (List Nat)
  | [], acc => .ok acc
  | g :: rest, acc =>
    if g = 0 then subsetLoop deps rest acc
    else
      match deps g with
      | .error e => .error e
      | .ok ds => subsetLoop deps rest (subsetAddDeps (ds.drop 1) acc)

/-- Embedding of the glyph-id list preparation of `Subset` (sfnt_subset.go
lines 31-58): for TrueType fonts composite dependencies are appended; then the
65535 bound is enforced.  The returned list is the subset's glyph order. -/
def subsetGlyphIDs (isTrueType : Bool) (deps : Nat → Except String (List Nat))
    (glyphIDs : List Nat) : Except String (List Nat) :=
  let r := if isTrueType then subsetLoop deps glyphIDs glyphIDs else .ok glyphIDs
  match r with
  | .error e => .error e
  | .ok l => if 65535 < l.length then .error "too many glyphs for one font" else .ok l

/-! ## Claim C3: `Merge` error handling

Embedding of the opening of `Merge` (sfnt_merge.go lines 128-156): the early
parameter checks, the maxp update, and the TrueType glyf/loca presence check.
The embedding stops at the first point where execution would continue into the
table rewriting (marked `proceeds`); the claim is decided inside this prefix,
because the maxp table is already rewritten before the glyf/loca presence
check can fail. -/
/-- Write `v` over `b.[i..i+v.length)`, as `binary.BigEndian.PutUint16` /
`PutUint32` do on a slice. -/
def setAt (b : List Nat) (i : Nat) (v : List Nat) : List Nat :=
  b.take i ++ v ++ b.drop (i + v.length)

/-- The receiver state touched by the modelled prefix of `Merge`: flavor
flags, the raw maxp table bytes, the parsed `Maxp.NumGlyphs`, and presence of
the glyf/loca tables. -/
structure MergeSFNT where
  isTrueType : Bool
  isCFF : Bool
  maxpTable : Option (List Nat)
  maxpNumGlyphs : Nat
  hasGlyf : Bool
  hasLoca : Bool
deriving DecidableEq, Repr

/-- `SFNT.NumGlyphs` (sfnt.go lines 79-81) reads `Maxp.NumGlyphs`. -/
def MergeSFNT.numGlyphs (s : MergeSFNT) : Nat := s.maxpNumGlyphs

/-- Outcome of the modelled prefix of `Merge`: an error return (with the
receiver in its state at that moment), an early nil return, or continuation
into the unmodelled table rewriting. -/
inductive MergeStep where
  | err (receiver : MergeSFNT) (msg : String)
  | done (receiver : MergeSFNT)
  | proceeds (receiver : MergeSFNT)
deriving DecidableEq, Repr

/-- Embedding of sfnt_merge.go lines 128-156: flavor check, glyph-count
overflow check, trivial-secondary early return, maxp update (both the parsed
view and the raw bytes at offset 4), then for TrueType fonts the glyf/loca
presence check.  Later stages of `Merge` are outside this prefix and are
reported as `proceeds`. -/
def mergePrefix (sfnt sfnt2 : MergeSFNT) : MergeStep :=
  if sfnt.isTrueType ≠ sfnt2.isTrueType ∨ sfnt.isCFF ≠ sfnt2.isCFF then
    .err sfnt "can only merge two TrueType or two CFF fonts"
  else if 65535 - sfnt.numGlyphs < sfnt2.numGlyphs then
    .err sfnt "too many glyphs for one font"
  else if sfnt2.numGlyphs < 2 then
    .done sfnt
  else
    let numGlyphsNew := sfnt.numGlyphs + sfnt2.numGlyphs - 1
    let sfnt1 :=
      match sfnt.maxpTable with
      | some table =>
          { sfnt with
              maxpNumGlyphs := numGlyphsNew
              maxpTable := some (setAt table 4 (be16Bytes numGlyphsNew)) }
      | none => sfnt
    if sfnt.isTrueType then
      if !sfnt1.hasGlyf || !sfnt2.hasGlyf || !sfnt1.hasLoca || !sfnt2.hasLoca then
        .err sfnt1 "glyf of loca tables missing"
      else
        .proceeds sfnt1
    else
      .proceeds sfnt1

/-- A TrueType receiver with a maxp table but no glyf table. -/
def mergeReceiverEx : MergeSFNT :=
  { isTrueType := true, isCFF := false,
    maxpTable := some [0, 1, 0, 0, 0, 2], maxpNumGlyphs := 2,
    hasGlyf := false, hasLoca := true }

/-- A well-formed TrueType secondary font with two glyphs. -/
def mergeSecondaryEx : MergeSFNT :=
  { isTrueType := true, isCFF := false,
    maxpTable := some [0, 1, 0, 0, 0, 2], maxpNumGlyphs := 2,
    hasGlyf := true, hasLoca := true }

/-! ## Claim C10: `cmapTable.Get` totality

Embedding of `cmapFormat4.Get` (sfnt_cmap.go lines 52-71) and of the
structural constraints that `parseCmap` enforces on a format-4 subtable
(sfnt_cmap.go lines 482-562).  Go's panic on an out-of-range slice index is
modelled as `none`. -/
/-- Go `uint16(int16value)`: reinterpret an `int16` as `uint16`. -/
def i16ToU16 (v : Int) : Nat := ((v % 65536 + 65536) % 65536).toNat

/-- A parsed format-4 cmap subtable (the four parallel segment arrays plus the
glyph-id array). -/
structure CmapFormat4 where
  startCode : List Nat
  endCode : List Nat
  idDelta : List Int
  idRangeOffset : List Nat
  glyphIdArray : List Nat
deriving DecidableEq, Repr

/-- The linear segment scan of `cmapFormat4.Get`.  Returns `some (gid, true)`
on a match, `some (0, false)` when no segment covers the rune, and `none`
where Go would panic indexing `GlyphIdArray` out of range (the source comment
asserts "index is always valid"). -/
def cmapFormat4GetLoop (st : CmapFormat4) (r16 : Nat) : Nat → Nat → Option (Nat × Bool)
  | 0, _ => some (0, false)
  | remaining + 1, i =>
    if st.startCode.getD i 0 ≤ r16 ∧ r16 ≤ st.endCode.getD i 0 then
      if st.idRangeOffset.getD i 0 = 0 then
        some ((i16ToU16 (st.idDelta.getD i 0) + r16) % 65536, true)
      else
        let index : Int := (st.idRangeOffset.getD i 0 / 2 : Nat) +
          ((r16 - st.startCode.getD i 0 : Nat) : Int) -
          ((st.startCode.length - i : Nat) : Int)
        if 0 ≤ index ∧ index < st.glyphIdArray.length then
          some (st.glyphIdArray.getD index.toNat 0, true)
        else
          none
    else
      cmapFormat4GetLoop st r16 remaining (i + 1)

/-- Embedding of `cmapFormat4.Get` (sfnt_cmap.go lines 52-71); the loop is
driven by the number of remaining segments. -/
def cmapFormat4Get (st : CmapFormat4) (r : Int) : Option (Nat × Bool) :=
  if r < 0 ∨ 65536 ≤ r then some (0, false)
  else cmapFormat4GetLoop st r.toNat st.startCode.length 0

/-- The structural constraints `parseCmap` enforces on a format-4 subtable
(sfnt_cmap.go lines 482-562): equal-length parallel arrays, strictly
increasing and non-overlapping segments, the `(0xFFFF, 0xFFFF)` terminator
with `idDelta = 1` and `idRangeOffset = 0`, even non-terminal range offsets
whose index at the segment's end code lies inside the glyph-id array, and all
glyph ids below `numGlyphs`. -/
def cmapFormat4Check (numGlyphs : Nat) (st : CmapFormat4) : Bool :=
  let n := st.startCode.length
  st.endCode.length = n && st.idDelta.length = n && st.idRangeOffset.length = n &&
  0 < n && n ≤ 20000 &&
  (List.range n).all (fun i =>
    st.startCode.getD i 0 ≤ st.endCode.getD i 0 && st.endCode.getD i 0 < 65536 &&
    (i + 1 = n || st.endCode.getD i 0 < st.startCode.getD (i + 1) 0)) &&
  st.startCode.getD (n - 1) 0 = 65535 && st.endCode.getD (n - 1) 0 = 65535 &&
  st.idDelta.getD (n - 1) 0 = 1 && st.idRangeOffset.getD (n - 1) 0 = 0 &&
  (List.range (n - 1)).all (fun i =>
    st.idRangeOffset.getD i 0 % 2 = 0 &&
    (st.idRangeOffset.getD i 0 = 0 ||
      (0 ≤ (st.idRangeOffset.getD i 0 / 2 : Int) +
          ((st.endCode.getD i 0 - st.startCode.getD i 0 : Nat) : Int) - ((n - i : Nat) : Int) ∧
        (st.idRangeOffset.getD i 0 / 2 : Int) +
          ((st.endCode.getD i 0 - st.startCode.getD i 0 : Nat) : Int) - ((n - i : Nat) : Int) <
          st.glyphIdArray.length))) &&
  st.glyphIdArray.all (fun g => g < numGlyphs)

/-- The format-4 subtable that triggers the bug: two segments, the first
covering runes 0..10 through the glyph-id array with `idRangeOffset = 2`. -/
def cmapFormat4Ex : CmapFormat4 :=
  { startCode := [0, 65535], endCode := [10, 65535],
    idDelta := [0, 1], idRangeOffset := [2, 0],
    glyphIdArray := [0, 0, 0, 0, 0, 0, 0, 0, 0, 0] }

/-- Embedding of `cmapTable.Get` (sfnt_cmap.go lines 377-384) over abstract
subtable lookup functions: first match wins, 0 when nothing matches, and a
subtable panic propagates. -/
def cmapTableGet (subtables : List (Int → Option (Nat × Bool))) (r : Int) : Option Nat :=
  match subtables with
  | [] => some 0
  | f :: rest =>
    match f r with
    | none => none
    | some (gid, true) => some gid
    | some (_, false) => cmapTableGet rest r

/-! ## Claim C1: WOFF2 final SFNT assembly and checksums

Embedding of the final assembly stage of `ParseWOFF2` (woff2.go lines
249-326), parameterized by the detransformed table list.  Tags are modelled as
their 4-byte big-endian values (for 4-character ASCII tags, `sort.Strings`
order coincides with numeric order, and the tag/map bookkeeping of the source
reduces to processing tables in sorted tag order once tags are distinct, which
the directory parser enforces).  The binary writer of the repository is not
under src/; it is modelled from the spec: writers append big-endian values to
a growing buffer whose `bytes()` is the written content (the initial slice
passed to `NewBinaryWriter` only provides capacity). -/
/-- The tag `head` as a big-endian 4-byte value. -/
def tagHead : Nat := 0x68656164

/-- The tag `DSIG` as a big-endian 4-byte value. -/
def tagDSIG : Nat := 0x44534947

/-- A detransformed WOFF2 table: tag and raw data bytes. -/
structure W2Table where
  tag : Nat
  data : List Nat
deriving DecidableEq, Repr

instance : Inhabited W2Table := ⟨⟨0, []⟩⟩

/-- Zero-padding of a table to a four-byte boundary
(`nPadding := (4 - actualLength&3) & 3` at woff2.go line 297). -/
def pad4 (d : List Nat) : List Nat :=
  d ++ List.replicate ((4 - d.length % 4) % 4) 0

/-- Insertion into a tag-sorted table list. -/
def insertTable (t : W2Table) : List W2Table → List W2Table
  | [] => [t]
  | u :: rest => if t.tag ≤ u.tag then t :: u :: rest else u :: insertTable t rest

/-- Sorting the tables by tag, modelling `sort.Strings(tags)` followed by the
`tagTableIndex` lookups (woff2.go lines 290-293) for distinct tags. -/
def sortTables : List W2Table → List W2Table
  | [] => []
  | t :: rest => insertTable t (sortTables rest)

/-- The `searchRange`/`entrySelector` doubling loop (woff2.go lines 265-274);
`numTables` is a `uint16`, so 17 doublings always suffice to reach the exit
condition. -/
def w2SearchRangeLoop (numTables : Nat) : Nat → Nat → Nat → Nat × Nat
  | 0, sr, es => (sr, es)
  | fuel + 1, sr, es =>
    if numTables < sr * 2 then (sr, es)
    else w2SearchRangeLoop numTables fuel (sr * 2) (es + 1)

/-- Zeroing of `head.checkSumAdjustment` applied to the table list
(woff2.go line 255). -/
def w2ZeroHead (tables : List W2Table) : List W2Table :=
  tables.map fun t =>
    if t.tag = tagHead then { t with data := setAt t.data 8 [0, 0, 0, 0] } else t

/-- The directory-entry and table-body writing loop (woff2.go lines 292-311):
for each table in sorted order, pad the data, emit the 16-byte record
(tag, checksum of the padded bytes, offset, unpadded length) and accumulate
the padded body.  `none` models the `uint32` overflow error return. -/
def w2Entries (sfntOffset : Nat) : List W2Table → Option (List Nat × List Nat)
  | [] => some ([], [])
  | t :: rest =>
    let actualLength := t.data.length
    let nPadding := (4 - actualLength % 4) % 4
    if 4294967295 < actualLength + nPadding + sfntOffset then none
    else
      let padded := pad4 t.data
      match w2Entries (sfntOffset + padded.length) rest with
      | none => none
      | some (dir, body) =>
        some (be32Bytes t.tag ++ be32Bytes (calcChecksum padded) ++
                be32Bytes sfntOffset ++ be32Bytes actualLength ++ dir,
              padded ++ body)

/-- Offset of the head table's body within the concatenated padded bodies
(the `iCheckSumAdjustment` bookkeeping of woff2.go lines 314-321, minus the
fixed prefix). -/
def headBodyOffset (acc : Nat) : List W2Table → Option Nat
  | [] => none
  | t :: rest =>
    if t.tag = tagHead then some acc
    else headBodyOffset (acc + (pad4 t.data).length) rest

/-- Embedding of the final assembly stage of `ParseWOFF2` (woff2.go lines
249-326): look up the head table and require at least 18 bytes, zero its
`checkSumAdjustment`, require flags bit 11 set, reject `DSIG`, enforce
`MaxMemory` on `totalSfntSize`, emit the offset table, the directory in
sorted-tag order and the padded tables, and patch `checkSumAdjustment` with
`0xB1B0AFBA - calcChecksum(buf)`. -/
def woff2Assemble (flavor totalSfntSize : Nat) (tables : List W2Table) :
    Option (List Nat) :=
  match tables.find? (fun t => t.tag == tagHead) with
  | none => none
  | some headT =>
    if headT.data.length < 18 then none
    else
      let tables1 := w2ZeroHead tables
      let headData := setAt headT.data 8 [0, 0, 0, 0]
      if (headData.getD 16 0 % 256 * 256 + headData.getD 17 0 % 256) &&& 2048 = 0 then
        none
      else if tables.any (fun t => t.tag == tagDSIG) then none
      else if 30 * 1024 * 1024 < totalSfntSize then none
      else
        let numTables := tables.length
        let sr := (w2SearchRangeLoop numTables 17 1 0).1
        let es := (w2SearchRangeLoop numTables 17 1 0).2
        let header := be32Bytes flavor ++ be16Bytes (u16 numTables) ++
          be16Bytes (u16 (sr * 16)) ++ be16Bytes (u16 es) ++
          be16Bytes (u16sub (numTables * 16) (sr * 16))
        let sorted := sortTables tables1
        match w2Entries (12 + 16 * numTables) sorted, headBodyOffset 0 sorted with
        | some (dir, body), some hoff =>
          let buf := header ++ dir ++ body
          let adj := u32sub 0xB1B0AFBA (calcChecksum buf)
          some (setAt buf (12 + 16 * numTables + hoff + 8) (be32Bytes adj))
        | _, _ => none

/-! ## CFF subsystem: INDEX, subroutines, CharString interpreter

Embeddings from the CFF implementation (part_002, first revision): `cffINDEX`
(lines 1126-1178), `cffCharStringSubrsBias` (lines 829-837), `cffNumberSize`
(lines 839-848), `getSubroutine` (lines 361-396), `parseCharString` (lines
398-551), the `ToPath` callback (lines 553-827), `updateSubrs` (lines
856-1037).  Charstring bytes are `List Nat`; 16.16 fixed-point operands are
`Int` with int32 wrap-around applied where Go arithmetic wraps.  The
`parse.BinaryReader` of the external tdewolff/parse package is modelled from
the spec (section 4.1): sequential reads, and reads past the end return zero
without advancing; a reader is its remaining byte list. -/
/-- Int32 wrap-around normalization for Go `int32` arithmetic. -/
def i32 (v : Int) : Int := (v + 2147483648) % 4294967296 - 2147483648

/-- Int32 addition with wrap-around (`x += ...` on Go `int32`). -/
def addi32 (a b : Int) : Int := i32 (a + b)

/-- A CFF INDEX: parallel offset array and data bytes (part_002 lines
1126-1129). -/
structure CffIndex where
  offset : List Nat
  data : List Nat
deriving DecidableEq, Repr

/-- `cffINDEX.Len` (part_002 lines 1131-1136). -/
def CffIndex.len (t : CffIndex) : Nat :=
  if t.offset.length = 0 then 0 else t.offset.length - 1

/-- `cffINDEX.Get` (part_002 lines 1149-1154): the slice
`data[offset[i]:offset[i+1]]`, or `nil` out of range. -/
def CffIndex.get (t : CffIndex) (i : Nat) : Option (List Nat) :=
  if i < t.len then
    some ((t.data.drop (t.offset.getD i 0)).take (t.offset.getD (i + 1) 0 - t.offset.getD i 0))
  else
    none

/-- `cffINDEX.Add` (part_002 lines 1171-1178): append an entry, returning the
new INDEX and the entry's index. -/
def CffIndex.add (t : CffIndex) (d : List Nat) : CffIndex × Nat :=
  let offset := if t.offset.length = 0 then [0] else t.offset
  let data := t.data ++ d
  (⟨offset ++ [data.length], data⟩, offset.length - 1)

/-- The per-glyph font mapping of a CFF table (`cffFontINDEX`, part_002 lines
1969-1976): either the `fds` byte array or the `first`/`fd` range arrays. -/
structure CffFontIndex where
  fds : Option (List Nat)
  first : List Nat
  fd : List Nat
  localSubrs : List CffIndex
deriving DecidableEq, Repr

/-- The range-scan loop of `cffFontINDEX.Index` (part_002 lines 1988-1991). -/
def cffFontIndexScan (first : List Nat) (glyphID : Nat) : Nat → Nat → Nat
  | 0, i => i
  | fuel + 1, i => if first.getD (i + 1) 0 ≤ glyphID then cffFontIndexScan first glyphID fuel (i + 1) else i

/-- `cffFontINDEX.Index` (part_002 lines 1978-1996). -/
def CffFontIndex.indexOf (t : CffFontIndex) (glyphID : Nat) : Option Nat :=
  match t.fds with
  | some fds => if fds.length ≤ glyphID then none else some (fds.getD glyphID 0)
  | none =>
    if t.first.length = 0 ∨ t.first.getD (t.first.length - 1) 0 ≤ glyphID then none
    else
      let i := cffFontIndexScan t.first glyphID t.first.length 0
      if t.fd.length < i then none else some (t.fd.getD i 0)

/-- `cffFontINDEX.GetLocalSubrs` (part_002 lines 2008-2014). -/
def CffFontIndex.getLocalSubrs (t : CffFontIndex) (glyphID : Nat) : Option CffIndex :=
  match t.indexOf glyphID with
  | none => none
  | some i => t.localSubrs.get? i

/-- The CFF table state used by the CharString interpreter (`cffTable`,
part_002 lines 19-28; the fields the interpreter reads). -/
structure CffTable where
  version : Nat
  globalSubrs : CffIndex
  charStrings : CffIndex
  fonts : CffFontIndex
deriving DecidableEq, Repr

/-- `cffCharStringSubrsBias` (part_002 lines 829-837). -/
def cffCharStringSubrsBias (n : Nat) : Nat :=
  if n < 1240 then 107
  else if n < 33900 then 1131
  else 32768

/-- `cffNumberSize` (part_002 lines 839-848): the canonical CharString number
encoding length for an integer value. -/
def cffNumberSize (i : Int) : Nat :=
  if -107 ≤ i ∧ i ≤ 107 then 1
  else if (-1131 ≤ i ∧ i ≤ -108) ∨ (108 ≤ i ∧ i ≤ 1131) then 2
  else if -32767 ≤ i ∧ i ≤ 32767 then 3
  else 5

/-- Errors of the CFF CharString machinery, one constructor per `fmt.Errorf`
site.  The `global` flag distinguishes local from global subroutine errors. -/
inductive CffErr where
  | noLocalSubrs
  | badSubrIndex (global : Bool) (index : Int)
  | subrNotExist (global : Bool) (index : Int)
  | subrTooLong (global : Bool) (index : Int)
  | badGlyphID (glyphID : Nat)
  | charStringTooLong
  | tooManyOperands
  | unexpectedOperator (b0 : Int)
  | unexpectedStemAfterMoveto (b0 : Int)
  | badNumOperands
  | unsupportedEndcharOperands
  | tooManyHints
  | tooManyNestedSubrs
  | badReturn
  | unsupportedOperator (b0 : Int)
  | missingEndchar
  | onlySingleFontSupported
  | subrIndexOutsideRange
deriving DecidableEq, Repr

/-- `getSubroutine` (part_002 lines 361-396): resolve a `callsubr` (`b0 = 10`)
or `callgsubr` (`b0 = 29`) operand (a 16.16 fixed-point stack value) to the
effective subroutine index and its bytes.  `stackVal >> 16` is Go's arithmetic
shift, i.e. floor division. -/
def cffGetSubroutine (cff : CffTable) (glyphID : Nat) (b0 : Int) (stackVal : Int) :
    Except CffErr (Int × List Nat) :=
  let global := b0 ≠ 10
  let subrsOpt := if b0 = 10 then cff.fonts.getLocalSubrs glyphID else some cff.globalSubrs
  match subrsOpt with
  | none => .error .noLocalSubrs
  | some subrs =>
    let n := subrs.len
    let index : Int := Int.fdiv stackVal 65536 +
      (if n < 1240 then 107 else if n < 33900 then 1131 else 32768)
    if index < 0 ∨ 65535 < index then .error (.badSubrIndex global index)
    else
      match subrs.get index.toNat with
      | none => .error (.subrNotExist global index)
      | some subr =>
        if 65535 < subr.length then .error (.subrTooLong global index)
        else .ok (index, subr)

/-- Modelled from the spec: reading one byte from a `parse.BinaryReader`
(section 4.1 of the spec; the package is an external dependency).  A reader is
its remaining byte list; reading past the end returns zero without advancing.
Returns the byte and the remaining reader. -/
def csReadByte (r : List Nat) : Nat × List Nat :=
  match r with
  | [] => (0, [])
  | b :: rest => (b % 256, rest)

/-- `cffReadCharStringNumber` (part_002 lines 343-359): decode the remainder
of a CharString number whose first byte `b0` has already been read.  The
result is a 16.16 fixed-point `int32`. -/
def cffReadCharStringNumber (r : List Nat) (b0 : Int) : Int × List Nat :=
  if b0 = 28 then
    let (hi, r1) := csReadByte r
    let (lo, r2) := csReadByte r1
    let v16 : Int := if 32768 ≤ hi * 256 + lo then (hi * 256 + lo : Int) - 65536 else (hi * 256 + lo : Int)
    (i32 (v16 * 65536), r2)
  else if b0 < 247 then
    ((b0 - 139) * 65536, r)
  else if b0 < 251 then
    let (b1, r1) := csReadByte r
    (((b0 - 247) * 256 + b1 + 108) * 65536, r1)
  else if b0 < 255 then
    let (b1, r1) := csReadByte r
    ((-(b0 - 251) * 256 - b1 - 108) * 65536, r1)
  else
    let (c0, r1) := csReadByte r
    let (c1, r2) := csReadByte r1
    let (c2, r3) := csReadByte r2
    let (c3, r4) := csReadByte r3
    let u : Int := ((c0 * 16777216 + c1 * 65536 + c2 * 256 + c3 : Nat) : Int)
    (if 2147483648 ≤ u then u - 4294967296 else u, r4)

/-- Modelled from the spec: `parse.BinaryReader.ReadBytes` (section 4.1);
when fewer bytes remain the read fails (eof) and does not advance.  Returns
the remaining reader. -/
def csReadBytes (r : List Nat) (n : Nat) : List Nat :=
  if n ≤ r.length then r.drop n else r

/-- State of the CharString interpreter loop (`parseCharString`, part_002
lines 411-416): current reader, call stack of saved readers, operand stack,
declared stem hints, the before-moveto flag, and the callback's state. -/
structure CSState (σ : Type) where
  r : List Nat
  callStack : List (List Nat)
  stack : List Int
  hints : Nat
  beforeMoveto : Bool
  cbState : σ

/-- Outcome of an interpreter run: normal `endchar`/end-of-stream completion,
an error, or exhausted fuel (the Go loop has no fuel; every claim is stated
for a sufficiently large fuel). -/
inductive CSOutcome where
  | done
  | failed (e : CffErr)
  | outOfFuel
deriving DecidableEq, Repr

/-- The callback type of `parseCharString`: callback state, the current
reader (its remaining bytes; Go hands the `*parse.BinaryReader` itself),
the operator, and the operand stack after width elision. -/
def CB (σ : Type) : Type := σ → List Nat → Int → List Int → Except CffErr σ

/-- The width-elision and operator-admissibility block of `parseCharString`
(part_002 lines 439-458), returning the adjusted stack and before-moveto
flag. -/
def csWidth (version : Nat) (beforeMoveto : Bool) (b0 : Int) (stack : List Int) :
    Except CffErr (List Int × Bool) :=
  if beforeMoveto ∧ version = 1 then
    if b0 = 1 ∨ b0 = 3 ∨ b0 = 4 ∨ b0 = 14 ∨ (18 ≤ b0 ∧ b0 ≤ 23) then
      let hasWidth :=
        if b0 = 22 ∨ b0 = 4 then ¬(stack.length % 2 = 1) else stack.length % 2 = 1
      let stack1 := if hasWidth then stack.drop 1 else stack
      let before1 := if b0 = 21 ∨ b0 = 22 ∨ b0 = 4 then false else beforeMoveto
      .ok (stack1, before1)
    else if b0 ≠ 10 ∧ b0 ≠ 29 ∧ b0 ≠ 11 then
      .error (.unexpectedOperator b0)
    else
      .ok (stack, beforeMoveto)
  else if ¬beforeMoveto ∧ version = 1 ∧ (b0 = 1 ∨ b0 = 3 ∨ b0 = 18 ∨ b0 = 23) then
    .error (.unexpectedStemAfterMoveto b0)
  else
    .ok (stack, beforeMoveto)

/-- The main loop of `parseCharString` (part_002 lines 417-551), fuel-driven:
one fuel unit per Go loop iteration.  The callback is invoked for every
operator before the dispatch switch, exactly as in the source. -/
def csRun (cff : CffTable) (glyphID : Nat) (cb : CB σ) :
    Nat → CSState σ → σ × CSOutcome
  | 0, st => (st.cbState, .outOfFuel)
  | fuel + 1, st =>
    if cff.version = 2 ∧ st.r.length = 0 ∧ 0 < st.callStack.length then
      csRun cff glyphID cb fuel
        { st with r := st.callStack.getD (st.callStack.length - 1) [],
                  callStack := st.callStack.dropLast }
    else if st.r.length = 0 then
      (st.cbState, if cff.version = 1 then .failed .missingEndchar else .done)
    else
      let (b0n, r1) := csReadByte st.r
      if 32 ≤ b0n ∨ b0n = 28 then
        let (v, r2) := cffReadCharStringNumber r1 b0n
        if (cff.version = 1 ∧ 48 ≤ st.stack.length) ∨
            (cff.version = 2 ∧ 513 ≤ st.stack.length) then
          (st.cbState, .failed .tooManyOperands)
        else
          csRun cff glyphID cb fuel { st with r := r2, stack := st.stack ++ [v] }
      else
        let (b0, r2) : Int × List Nat :=
          if b0n = 12 then
            let (b1, r2) := csReadByte r1
            ((256 + b1 : Nat), r2)
          else
            ((b0n : Int), r1)
        match csWidth cff.version st.beforeMoveto b0 st.stack with
        | .error e => (st.cbState, .failed e)
        | .ok (stack1, before1) =>
          match cb st.cbState r2 b0 stack1 with
          | .error e => (st.cbState, .failed e)
          | .ok cbSt1 =>
            if b0 = 14 then
              -- endchar
              if cff.version = 2 then (cbSt1, .failed (.unsupportedOperator b0))
              else if stack1.length = 4 then (cbSt1, .failed .unsupportedEndcharOperands)
              else if stack1.length ≠ 0 then (cbSt1, .failed .badNumOperands)
              else (cbSt1, .done)
            else if b0 = 1 ∨ b0 = 3 ∨ b0 = 18 ∨ b0 = 23 then
              -- hstem, vstem, hstemhm, vstemhm
              if stack1.length < 2 ∨ stack1.length % 2 ≠ 0 then
                (cbSt1, .failed .badNumOperands)
              else if 96 < st.hints + stack1.length / 2 then
                (cbSt1, .failed .tooManyHints)
              else
                csRun cff glyphID cb fuel
                  { r := r2, callStack := st.callStack, stack := [],
                    hints := st.hints + stack1.length / 2,
                    beforeMoveto := before1, cbState := cbSt1 }
            else if b0 = 19 ∨ b0 = 20 then
              -- hintmask, cntrmask (with implicit vstem counting)
              if b0 = 19 ∧ 0 < stack1.length then
                if stack1.length % 2 ≠ 0 then (cbSt1, .failed .badNumOperands)
                else if 96 < st.hints + stack1.length / 2 then (cbSt1, .failed .tooManyHints)
                else
                  csRun cff glyphID cb fuel
                    { r := csReadBytes r2 ((st.hints + stack1.length / 2 + 7) / 8),
                      callStack := st.callStack, stack := [],
                      hints := st.hints + stack1.length / 2,
                      beforeMoveto := before1, cbState := cbSt1 }
              else
                csRun cff glyphID cb fuel
                  { r := csReadBytes r2 ((st.hints + 7) / 8),
                    callStack := st.callStack, stack := [], hints := st.hints,
                    beforeMoveto := before1, cbState := cbSt1 }
            else if b0 = 10 ∨ b0 = 29 then
              -- callsubr, callgsubr
              if 10 < st.callStack.length then (cbSt1, .failed .tooManyNestedSubrs)
              else if stack1.length = 0 then (cbSt1, .failed .badNumOperands)
              else
                match cffGetSubroutine cff glyphID b0 (stack1.getD (stack1.length - 1) 0) with
                | .error e => (cbSt1, .failed e)
                | .ok (_, subr) =>
                  csRun cff glyphID cb fuel
                    { r := subr, callStack := st.callStack ++ [r2],
                      stack := stack1.dropLast, hints := st.hints,
                      beforeMoveto := before1, cbState := cbSt1 }
            else if b0 = 11 then
              -- return
              if cff.version = 2 then (cbSt1, .failed (.unsupportedOperator b0))
              else if st.callStack.length = 0 then (cbSt1, .failed .badReturn)
              else
                csRun cff glyphID cb fuel
                  { r := st.callStack.getD (st.callStack.length - 1) [],
                    callStack := st.callStack.dropLast, stack := stack1,
                    hints := st.hints, beforeMoveto := before1, cbState := cbSt1 }
            else if b0 = 21 ∨ b0 = 22 ∨ b0 = 4 ∨ b0 = 5 ∨ b0 = 6 ∨ b0 = 7 ∨ b0 = 8 ∨
                b0 = 27 ∨ b0 = 31 ∨ b0 = 24 ∨ b0 = 25 ∨ b0 = 30 ∨ b0 = 26 ∨
                b0 = 291 ∨ b0 = 290 ∨ b0 = 292 ∨ b0 = 293 then
              -- path construction operators
              csRun cff glyphID cb fuel
                { r := r2, callStack := st.callStack, stack := [],
                  hints := st.hints, beforeMoveto := before1, cbState := cbSt1 }
            else if b0 = 16 then
              -- blend (CFF2 only)
              if cff.version = 1 then (cbSt1, .failed (.unsupportedOperator b0))
              else
                csRun cff glyphID cb fuel
                  { r := r2, callStack := st.callStack, stack := stack1,
                    hints := st.hints, beforeMoveto := before1, cbState := cbSt1 }
            else if b0 = 15 then
              -- vsindex (CFF2 only)
              if cff.version = 1 then (cbSt1, .failed (.unsupportedOperator b0))
              else
                csRun cff glyphID cb fuel
                  { r := r2, callStack := st.callStack, stack := stack1,
                    hints := st.hints, beforeMoveto := before1, cbState := cbSt1 }
            else
              (cbSt1, .failed (.unsupportedOperator b0))

/-- `parseCharString` (part_002 lines 398-416): glyph lookup, the 65535-byte
bound, and the interpreter loop from the initial state. -/
def cffParseCharString (cff : CffTable) (glyphID : Nat) (cb : CB σ) (s0 : σ)
    (fuel : Nat) : σ × CSOutcome :=
  match cff.charStrings.get glyphID with
  | none => (s0, .failed (.badGlyphID glyphID))
  | some cs =>
    if 65535 < cs.length then (s0, .failed .charStringTooLong)
    else csRun cff glyphID cb fuel ⟨cs, [], [], 0, true, s0⟩

/-! ### The `ToPath` callback (part_002 lines 553-827)

Pather calls are recorded with the interpreter's 16.16 fixed-point
coordinates; the Go code maps each recorded coordinate through the fixed
affine transform `x0 + f*float64(x)` when invoking the `Pather`, so equal
traces give equal Pather call sequences. -/
/-- A recorded Pather call. -/
inductive PathCmd where
  | moveTo (x y : Int)
  | lineTo (x y : Int)
  | cubeTo (cpx1 cpy1 cpx2 cpy2 x y : Int)
  | close
deriving DecidableEq, Repr

/-- The state threaded through the `ToPath` callback: current point in 16.16
fixed point and the Pather calls emitted so far. -/
structure PathState where
  x : Int
  y : Int
  trace : List PathCmd
deriving DecidableEq, Repr

/-- `rlineto` loop (part_002 lines 586-590). -/
def tpPairLineLoop (x y : Int) : List Int → Int × Int × List PathCmd
  | a :: b :: rest =>
    let x1 := addi32 x a
    let y1 := addi32 y b
    let (x2, y2, cmds) := tpPairLineLoop x1 y1 rest
    (x2, y2, .lineTo x1 y1 :: cmds)
  | _ => (x, y, [])

/-- `hlineto`/`vlineto` alternating loop (part_002 lines 595-604). -/
def tpAltLineLoop (vertical : Bool) (x y : Int) : List Int → Int × Int × List PathCmd
  | a :: rest =>
    let x1 := if !vertical then addi32 x a else x
    let y1 := if !vertical then y else addi32 y a
    let (x2, y2, cmds) := tpAltLineLoop (!vertical) x1 y1 rest
    (x2, y2, .lineTo x1 y1 :: cmds)
  | [] => (x, y, [])

/-- `rrcurveto` loop (part_002 lines 609-619), also used by `flex`'s two
curves and the curve prefix of `rcurveline`. -/
def tpCurveLoop (x y : Int) : List Int → Int × Int × List PathCmd
  | a :: b :: c :: d :: e :: f :: rest =>
    let cpx1 := addi32 x a
    let cpy1 := addi32 y b
    let cpx2 := addi32 cpx1 c
    let cpy2 := addi32 cpy1 d
    let x1 := addi32 cpx2 e
    let y1 := addi32 cpy2 f
    let (x2, y2, cmds) := tpCurveLoop x1 y1 rest
    (x2, y2, .cubeTo cpx1 cpy1 cpx2 cpy2 x1 y1 :: cmds)
  | _ => (x, y, [])

/-- `hhcurveto`/`vvcurveto` main loop (part_002 lines 634-650); `vertical`
stays fixed. -/
def tpHhVvLoop (vertical : Bool) (x y : Int) : List Int → Int × Int × List PathCmd
  | a :: b :: c :: d :: rest =>
    let cpx1 := if !vertical then addi32 x a else x
    let cpy1 := if !vertical then y else addi32 y a
    let cpx2 := addi32 cpx1 b
    let cpy2 := addi32 cpy1 c
    let x1 := if !vertical then addi32 cpx2 d else cpx2
    let y1 := if !vertical then cpy2 else addi32 cpy2 d
    let (x2, y2, cmds) := tpHhVvLoop vertical x1 y1 rest
    (x2, y2, .cubeTo cpx1 cpy1 cpx2 cpy2 x1 y1 :: cmds)
  | _ => (x, y, [])

/-- `hvcurveto`/`vhcurveto` loop (part_002 lines 656-681): alternating
orientation, with a fifth coordinate consumed when exactly five operands
remain (`i+5 == len(stack)`). -/
def tpHvVhLoop (vertical : Bool) (x y : Int) : List Int → Int × Int × List PathCmd
  | [a, b, c, d, e] =>
    let cpx1 := if !vertical then addi32 x a else x
    let cpy1 := if !vertical then y else addi32 y a
    let cpx2 := addi32 cpx1 b
    let cpy2 := addi32 cpy1 c
    let x1 := if !vertical then cpx2 else addi32 cpx2 d
    let y1 := if !vertical then addi32 cpy2 d else cpy2
    let x2 := if !vertical then addi32 x1 e else x1
    let y2 := if !vertical then y1 else addi32 y1 e
    (x2, y2, [.cubeTo cpx1 cpy1 cpx2 cpy2 x2 y2])
  | a :: b :: c :: d :: rest =>
    let cpx1 := if !vertical then addi32 x a else x
    let cpy1 := if !vertical then y else addi32 y a
    let cpx2 := addi32 cpx1 b
    let cpy2 := addi32 cpy1 c
    let x1 := if !vertical then cpx2 else addi32 cpx2 d
    let y1 := if !vertical then addi32 cpy2 d else cpy2
    let (x2, y2, cmds) := tpHvVhLoop (!vertical) x1 y1 rest
    (x2, y2, .cubeTo cpx1 cpy1 cpx2 cpy2 x1 y1 :: cmds)
  | _ => (x, y, [])

/-- `rcurveline` (part_002 lines 682-700): cubic curves, then one line from
the final two operands. -/
def tpCurveLineLoop (x y : Int) : List Int → Int × Int × List PathCmd
  | [a, b] =>
    let x1 := addi32 x a
    let y1 := addi32 y b
    (x1, y1, [.lineTo x1 y1])
  | a :: b :: c :: d :: e :: f :: rest =>
    let cpx1 := addi32 x a
    let cpy1 := addi32 y b
    let cpx2 := addi32 cpx1 c
    let cpy2 := addi32 cpy1 d
    let x1 := addi32 cpx2 e
    let y1 := addi32 cpy2 f
    let (x2, y2, cmds) := tpCurveLineLoop x1 y1 rest
    (x2, y2, .cubeTo cpx1 cpy1 cpx2 cpy2 x1 y1 :: cmds)
  | _ => (x, y, [])

/-- `rlinecurve` (part_002 lines 701-719): lines, then one cubic curve from
the final six operands. -/
def tpLineCurveLoop (x y : Int) : List Int → Int × Int × List PathCmd
  | [a, b, c, d, e, f] =>
    let cpx1 := addi32 x a
    let cpy1 := addi32 y b
    let cpx2 := addi32 cpx1 c
    let cpy2 := addi32 cpy1 d
    let x1 := addi32 cpx2 e
    let y1 := addi32 cpy2 f
    (x1, y1, [.cubeTo cpx1 cpy1 cpx2 cpy2 x1 y1])
  | a :: b :: rest =>
    let x1 := addi32 x a
    let y1 := addi32 y b
    let (x2, y2, cmds) := tpLineCurveLoop x1 y1 rest
    (x2, y2, .lineTo x1 y1 :: cmds)
  | _ => (x, y, [])

/-- Emit helper: apply a loop result to the path state. -/
def tpApply (ps : PathState) (r : Int × Int × List PathCmd) : PathState :=
  ⟨r.1, r.2.1, ps.trace ++ r.2.2⟩

/-- The `ToPath` callback (part_002 lines 558-819): path-construction
operators move the current point and record Pather calls; every other
operator is ignored by the callback (no switch case). -/
def toPathCB : CB PathState := fun ps _r b0 stack =>
  if b0 = 21 then
    -- rmoveto
    if stack.length ≠ 2 then .error .badNumOperands
    else
      let x1 := addi32 ps.x (stack.getD 0 0)
      let y1 := addi32 ps.y (stack.getD 1 0)
      .ok ⟨x1, y1, ps.trace ++ [.close, .moveTo x1 y1]⟩
  else if b0 = 22 then
    -- hmoveto
    if stack.length ≠ 1 then .error .badNumOperands
    else
      let x1 := addi32 ps.x (stack.getD 0 0)
      .ok ⟨x1, ps.y, ps.trace ++ [.close, .moveTo x1 ps.y]⟩
  else if b0 = 4 then
    -- vmoveto
    if stack.length ≠ 1 then .error .badNumOperands
    else
      let y1 := addi32 ps.y (stack.getD 0 0)
      .ok ⟨ps.x, y1, ps.trace ++ [.close, .moveTo ps.x y1]⟩
  else if b0 = 5 then
    -- rlineto
    if stack.length = 0 ∨ stack.length % 2 ≠ 0 then .error .badNumOperands
    else .ok (tpApply ps (tpPairLineLoop ps.x ps.y stack))
  else if b0 = 6 ∨ b0 = 7 then
    -- hlineto, vlineto
    if stack.length = 0 then .error .badNumOperands
    else .ok (tpApply ps (tpAltLineLoop (b0 = 7) ps.x ps.y stack))
  else if b0 = 8 then
    -- rrcurveto
    if stack.length = 0 ∨ stack.length % 6 ≠ 0 then .error .badNumOperands
    else .ok (tpApply ps (tpCurveLoop ps.x ps.y stack))
  else if b0 = 27 ∨ b0 = 26 then
    -- hhcurveto, vvcurveto
    if stack.length < 4 ∨ (stack.length % 4 ≠ 0 ∧ (stack.length - 1) % 4 ≠ 0) then
      .error .badNumOperands
    else
      let vertical := b0 = 26
      if stack.length % 4 = 1 then
        let x1 := if !vertical then ps.x else addi32 ps.x (stack.getD 0 0)
        let y1 := if !vertical then addi32 ps.y (stack.getD 0 0) else ps.y
        .ok (tpApply ps (tpHhVvLoop vertical x1 y1 (stack.drop 1)))
      else
        .ok (tpApply ps (tpHhVvLoop vertical ps.x ps.y stack))
  else if b0 = 31 ∨ b0 = 30 then
    -- hvcurveto, vhcurveto
    if stack.length < 4 ∨ (stack.length % 4 ≠ 0 ∧ (stack.length - 1) % 4 ≠ 0) then
      .error .badNumOperands
    else .ok (tpApply ps (tpHvVhLoop (b0 = 30) ps.x ps.y stack))
  else if b0 = 24 then
    -- rcurveline
    if stack.length < 2 ∨ (stack.length - 2) % 6 ≠ 0 then .error .badNumOperands
    else .ok (tpApply ps (tpCurveLineLoop ps.x ps.y stack))
  else if b0 = 25 then
    -- rlinecurve
    if stack.length < 6 ∨ (stack.length - 6) % 2 ≠ 0 then .error .badNumOperands
    else .ok (tpApply ps (tpLineCurveLoop ps.x ps.y stack))
  else if b0 = 291 then
    -- flex: two cubic curves from the first twelve operands
    if stack.length ≠ 13 then .error .badNumOperands
    else .ok (tpApply ps (tpCurveLoop ps.x ps.y (stack.take 12)))
  else if b0 = 290 then
    -- hflex
    if stack.length ≠ 7 then .error .badNumOperands
    else
      let y1 := ps.y
      let cpx1 := addi32 ps.x (stack.getD 0 0)
      let cpy1 := ps.y
      let cpx2 := addi32 cpx1 (stack.getD 1 0)
      let cpy2 := addi32 cpy1 (stack.getD 2 0)
      let xa := addi32 cpx2 (stack.getD 3 0)
      let ya := cpy2
      let cpx3 := addi32 xa (stack.getD 4 0)
      let cpy3 := ya
      let cpx4 := addi32 cpx3 (stack.getD 5 0)
      let cpy4 := y1
      let xb := addi32 cpx4 (stack.getD 6 0)
      let yb := y1
      .ok ⟨xb, yb, ps.trace ++ [.cubeTo cpx1 cpy1 cpx2 cpy2 xa ya,
                                .cubeTo cpx3 cpy3 cpx4 cpy4 xb yb]⟩
  else if b0 = 292 then
    -- hflex1
    if stack.length ≠ 9 then .error .badNumOperands
    else
      let y1 := ps.y
      let cpx1 := addi32 ps.x (stack.getD 0 0)
      let cpy1 := addi32 ps.y (stack.getD 1 0)
      let cpx2 := addi32 cpx1 (stack.getD 2 0)
      let cpy2 := addi32 cpy1 (stack.getD 3 0)
      let xa := addi32 cpx2 (stack.getD 4 0)
      let ya := cpy2
      let cpx3 := addi32 xa (stack.getD 5 0)
      let cpy3 := ya
      let cpx4 := addi32 cpx3 (stack.getD 6 0)
      let cpy4 := addi32 cpy3 (stack.getD 7 0)
      let xb := addi32 cpx4 (stack.getD 8 0)
      let yb := y1
      .ok ⟨xb, yb, ps.trace ++ [.cubeTo cpx1 cpy1 cpx2 cpy2 xa ya,
                                .cubeTo cpx3 cpy3 cpx4 cpy4 xb yb]⟩
  else if b0 = 293 then
    -- flex1
    if stack.length ≠ 11 then .error .badNumOperands
    else
      let x1 := ps.x
      let y1 := ps.y
      let cpx1 := addi32 ps.x (stack.getD 0 0)
      let cpy1 := addi32 ps.y (stack.getD 1 0)
      let cpx2 := addi32 cpx1 (stack.getD 2 0)
      let cpy2 := addi32 cpy1 (stack.getD 3 0)
      let xa := addi32 cpx2 (stack.getD 4 0)
      let ya := addi32 cpy2 (stack.getD 5 0)
      let cpx3 := addi32 xa (stack.getD 6 0)
      let cpy3 := addi32 ya (stack.getD 7 0)
      let cpx4 := addi32 cpx3 (stack.getD 8 0)
      let cpy4 := addi32 cpy3 (stack.getD 9 0)
      let dx0 := i32 (cpx4 - x1)
      let dy0 := i32 (cpy4 - y1)
      let dx := if dx0 < 0 then i32 (-dx0) else dx0
      let dy := if dy0 < 0 then i32 (-dy0) else dy0
      let xb := if dy < dx then addi32 cpx4 (stack.getD 10 0) else x1
      let yb := if dy < dx then y1 else addi32 cpy4 (stack.getD 10 0)
      .ok ⟨xb, yb, ps.trace ++ [.cubeTo cpx1 cpy1 cpx2 cpy2 xa ya,
                                .cubeTo cpx3 cpy3 cpx4 cpy4 xb yb]⟩
  else
    .ok ps

/-- `ToPath` (part_002 lines 553-827): run the interpreter with the path
callback from the zero state and close the path on success. -/
def cffToPath (cff : CffTable) (glyphID : Nat) (fuel : Nat) : PathState × CSOutcome :=
  match cffParseCharString cff glyphID toPathCB ⟨0, 0, []⟩ fuel with
  | (ps, .done) => (⟨ps.x, ps.y, ps.trace ++ [.close]⟩, .done)
  | (ps, oc) => (ps, oc)

/-! ### Subroutine reindex rewriting (`updateSubrs`, part_002 lines 850-1037)

The recorder callback notes every `callsubr`/`callgsubr` site whose
subroutine index is remapped; the change-application loop then rewrites each
buffer in one pass.  Go's `indexChanges` map is keyed by INDEX pointer; the
three possible targets (the CharStrings INDEX and the two new subroutine
INDEXes) become a tag. -/
/-- A recorded rewrite site (`cffSubrIndexChange`, part_002 lines 850-853):
byte range of the encoded operand and the new biased operand value. -/
structure SubrChange where
  start : Nat
  stop : Nat
  index : Int
deriving DecidableEq, Repr

/-- The INDEX a change applies to. -/
inductive SubrTarget where
  | chars
  | locals
  | globals
deriving DecidableEq, Repr

/-- State of the recording callback of `updateSubrs` (part_002 lines
871-887): skip depth, handled old indices, recorded changes per target, and
the index/offset stacks mirroring the interpreter's subroutine nesting.
`lenStack` tracks the total length of each reader's buffer so that the
callback can recover `r.Pos()` from the remaining bytes. -/
structure USState where
  skipDepth : Nat
  localHandled : List Int
  globalHandled : List Int
  charsChanges : List SubrChange
  localChanges : List SubrChange
  globalChanges : List SubrChange
  indexStack : List SubrTarget
  offsetStack : List Nat
  lenStack : List Nat
deriving DecidableEq, Repr

/-- Lookup in an old-to-new subroutine index map (Go `map[int32]int32`). -/
def lookupMap (m : List (Int × Int)) (k : Int) : Option Int :=
  (m.find? (fun p => p.1 == k)).map (fun p => p.2)

/-- Record a change on the current target INDEX. -/
def usRecord (us : USState) (target : SubrTarget) (ch : SubrChange) : USState :=
  match target with
  | .chars => { us with charsChanges := us.charsChanges ++ [ch] }
  | .locals => { us with localChanges := us.localChanges ++ [ch] }
  | .globals => { us with globalChanges := us.globalChanges ++ [ch] }

/-- The recording callback of `updateSubrs` (part_002 lines 888-968). -/
def usCB (cff : CffTable) (glyphID : Nat)
    (localSubrsMap globalSubrsMap : List (Int × Int))
    (oldLocalBias oldGlobalBias newLocalBias newGlobalBias : Int)
    (localSubrsNew globalSubrsNew : CffIndex) : CB USState := fun us r b0 stack =>
  if b0 = 10 ∨ b0 = 29 then
    if stack.length = 0 then .error .badNumOperands
    else
      let num := stack.getD (stack.length - 1) 0
      match cffGetSubroutine cff glyphID b0 num with
      | .error e => .error e
      | .ok (oldIndex, subr) =>
        let mapped : Option (Int × Int × Int) :=
          if b0 = 10 then
            match lookupMap localSubrsMap oldIndex with
            | some v => some (oldLocalBias, v, newLocalBias)
            | none => none
          else
            match lookupMap globalSubrsMap oldIndex with
            | some v => some (oldGlobalBias, v, newGlobalBias)
            | none => none
        let newIndex : Int := match mapped with | some (_, v, _) => v | none => 0
        let us1 :=
          match mapped with
          | some (oldBias, v, newBias) =>
            if us.skipDepth = 0 ∧ oldIndex ≠ v then
              let lenNumber := cffNumberSize (oldIndex - oldBias)
              let pos := us.lenStack.getD (us.lenStack.length - 1) 0 - r.length
              let posNumber := pos - 1 - lenNumber
              let offset := us.offsetStack.getD (us.offsetStack.length - 1) 0
              usRecord us (us.indexStack.getD (us.indexStack.length - 1) .chars)
                ⟨offset + posNumber, offset + posNumber + lenNumber, v - newBias⟩
            else us
          | none => us
        if 0 < us1.skipDepth then
          .ok { us1 with skipDepth := us1.skipDepth + 1 }
        else if b0 = 10 ∧ oldIndex ∈ us1.localHandled then
          .ok { us1 with skipDepth := us1.skipDepth + 1 }
        else if b0 ≠ 10 ∧ oldIndex ∈ us1.globalHandled then
          .ok { us1 with skipDepth := us1.skipDepth + 1 }
        else
          let us2 :=
            if b0 = 10 then { us1 with localHandled := us1.localHandled ++ [oldIndex] }
            else { us1 with globalHandled := us1.globalHandled ++ [oldIndex] }
          let newIdx := if b0 = 10 then localSubrsNew else globalSubrsNew
          .ok { us2 with
                  indexStack := us2.indexStack ++ [if b0 = 10 then .locals else .globals],
                  offsetStack := us2.offsetStack ++ [newIdx.offset.getD newIndex.toNat 0],
                  lenStack := us2.lenStack ++ [subr.length] }
  else if b0 = 11 then
    if 0 < us.skipDepth then
      .ok { us with skipDepth := us.skipDepth - 1 }
    else
      .ok { us with indexStack := us.indexStack.dropLast,
                    offsetStack := us.offsetStack.dropLast,
                    lenStack := us.lenStack.dropLast }
  else
    .ok us

/-- The encoding step of the change-application loop (part_002 lines
996-1010): canonical CharString number encodings of one to three bytes;
values outside the `int16` range are rejected. -/
def cffEncodeSubrNum (i : Int) : Option (List Nat) :=
  if -107 ≤ i ∧ i ≤ 107 then some [(i + 139).toNat]
  else if 108 ≤ i ∧ i ≤ 1131 then
    some [((i - 108) / 256 + 247).toNat, ((i - 108) % 256).toNat]
  else if -1131 ≤ i ∧ i ≤ -108 then
    some [((-i - 108) / 256 + 251).toNat, ((-i - 108) % 256).toNat]
  else if -32768 ≤ i ∧ i ≤ 32767 then
    some [28, ((i.emod 65536) / 256).toNat, ((i.emod 65536) % 256).toNat]
  else none

/-- Sorting of the recorded changes by start offset (`sort.Slice` at part_002
lines 976-978). -/
def insertChange (c : SubrChange) : List SubrChange → List SubrChange
  | [] => [c]
  | d :: rest => if c.start < d.start then c :: d :: rest else d :: insertChange c rest

/-- Insertion sort over the change list. -/
def sortChanges : List SubrChange → List SubrChange
  | [] => []
  | c :: rest => insertChange c (sortChanges rest)

/-- Go `uint32(int32(v) + diff)`: offset adjustment with wrap-around. -/
def offAdjust (v : Nat) (diff : Int) : Nat :=
  (((v : Int) + diff).emod 4294967296).toNat

/-- The offset-bump loop inside the change application (part_002 lines
986-989): advance `k` over offsets not beyond the change start, adding the
running delta. -/
def bumpOffsets : Nat → List Nat → Nat → Int → Nat → List Nat × Nat
  | 0, offs, k, _, _ => (offs, k)
  | fuel + 1, offs, k, diff, bound =>
    if k < offs.length ∧ offs.getD k 0 ≤ bound then
      bumpOffsets fuel (offs.set k (offAdjust (offs.getD k 0) diff)) (k + 1) diff bound
    else
      (offs, k)

/-- The trailing offset bump (part_002 lines 1017-1022). -/
def bumpAll : Nat → List Nat → Nat → Int → List Nat
  | 0, offs, _, _ => offs
  | fuel + 1, offs, k, diff =>
    if k < offs.length then bumpAll fuel (offs.set k (offAdjust (offs.getD k 0) diff)) (k + 1) diff
    else offs

/-- The per-INDEX change-application loop of `updateSubrs` (part_002 lines
980-1026), over changes already sorted by start offset: copy the bytes before
each change, write the new number, track the size delta `diff`, and adjust
the INDEX offsets. -/
def cffApplyChangesSorted (idx : CffIndex) :
    List SubrChange → Nat → Nat → Int → List Nat → List Nat → Except CffErr CffIndex
  | [], k, offset, diff, acc, offs =>
    let offs1 := if diff ≠ 0 then bumpAll offs.length offs k diff else offs
    .ok ⟨offs1, acc ++ idx.data.drop offset⟩
  | ch :: rest, k, offset, diff, acc, offs =>
    let (offs1, k1) := bumpOffsets offs.length offs k diff ch.start
    let acc1 := acc ++ (idx.data.drop offset).take (ch.start - offset)
    match cffEncodeSubrNum ch.index with
    | none => .error .subrIndexOutsideRange
    | some enc =>
      cffApplyChangesSorted idx rest k1 ch.stop
        (diff + (enc.length : Int) - ((ch.stop : Int) - (ch.start : Int)))
        (acc1 ++ enc) offs1

/-- Application of the recorded changes to one INDEX (part_002 lines
975-1027). -/
def cffApplyChanges (idx : CffIndex) (changes : List SubrChange) : Except CffErr CffIndex :=
  cffApplyChangesSorted idx (sortChanges changes) 1 0 0 [] idx.offset

/-- The per-glyph recording loop of `updateSubrs` (part_002 lines 881-973):
the skip depth and index/offset stacks are reset for each glyph, while the
handled sets and recorded changes persist. -/
def usLoop (cff : CffTable) (localSubrsMap globalSubrsMap : List (Int × Int))
    (oldLocalBias oldGlobalBias newLocalBias newGlobalBias : Int)
    (localSubrsNew globalSubrsNew : CffIndex) (fuel : Nat) :
    Nat → Nat → USState → USState × CSOutcome
  | 0, _, us => (us, .done)
  | n + 1, g, us =>
    let csLen := cff.charStrings.offset.getD (g + 1) 0 - cff.charStrings.offset.getD g 0
    let us0 := { us with skipDepth := 0, indexStack := [.chars],
                         offsetStack := [cff.charStrings.offset.getD g 0],
                         lenStack := [csLen] }
    match cffParseCharString cff g
        (usCB cff g localSubrsMap globalSubrsMap oldLocalBias oldGlobalBias
          newLocalBias newGlobalBias localSubrsNew globalSubrsNew) us0 fuel with
    | (us1, .done) =>
      usLoop cff localSubrsMap globalSubrsMap oldLocalBias oldGlobalBias
        newLocalBias newGlobalBias localSubrsNew globalSubrsNew fuel n (g + 1) us1
    | (us1, oc) => (us1, oc)

/-- Empty recorder state. -/
def usInit : USState := ⟨0, [], [], [], [], [], [], [], []⟩

/-- `updateSubrs` (part_002 lines 856-1037): record all remapped call sites
by interpreting every glyph, then rewrite the three INDEXes and install the
new subroutine INDEXes.  `none` models fuel exhaustion (impossible for the Go
loop); errors are the function's error returns. -/
def cffUpdateSubrs (cff : CffTable) (localSubrsMap globalSubrsMap : List (Int × Int))
    (localSubrsNew globalSubrsNew : CffIndex) (fuel : Nat) :
    Option (Except CffErr CffTable) :=
  if 1 < cff.fonts.localSubrs.length then some (.error .onlySingleFontSupported)
  else if localSubrsMap.length = 0 ∧ globalSubrsMap.length = 0 then some (.ok cff)
  else
    let oldLocalLen := match cff.fonts.localSubrs.get? 0 with
      | some ls => ls.len
      | none => 0
    let oldLocalBias : Int := cffCharStringSubrsBias oldLocalLen
    let oldGlobalBias : Int := cffCharStringSubrsBias cff.globalSubrs.len
    let newLocalBias : Int := cffCharStringSubrsBias localSubrsNew.len
    let newGlobalBias : Int := cffCharStringSubrsBias globalSubrsNew.len
    match usLoop cff localSubrsMap globalSubrsMap oldLocalBias oldGlobalBias
        newLocalBias newGlobalBias localSubrsNew globalSubrsNew fuel
        cff.charStrings.len 0 usInit with
    | (_, .outOfFuel) => none
    | (_, .failed e) => some (.error e)
    | (us, .done) =>
      match cffApplyChanges cff.charStrings us.charsChanges,
          cffApplyChanges localSubrsNew us.localChanges,
          cffApplyChanges globalSubrsNew us.globalChanges with
      | .ok chars1, .ok locals1, .ok globals1 =>
        some (.ok { cff with charStrings := chars1, globalSubrs := globals1,
                             fonts := { cff.fonts with localSubrs := [locals1] } })
      | _, _, _ => some (.error .subrIndexOutsideRange)

/-! ## Claim C6: subroutine reindexing and buffer growth -/
/-- Chained well-formedness of a change list against a buffer of `dlen`
bytes, starting the copy loop at `offset`: every change spans a
non-decreasing in-bounds byte range, and consecutive changes do not
overlap. -/
def changesChained (dlen : Nat) : Nat → List SubrChange → Bool
  | _, [] => true
  | offset, ch :: rest =>
    decide (offset ≤ ch.start) && decide (ch.start ≤ ch.stop) &&
      decide (ch.stop ≤ dlen) && changesChained dlen ch.stop rest

/-- A change whose new-number encoding fits within the byte span it
replaces. -/
def encFits (ch : SubrChange) : Bool :=
  match cffEncodeSubrNum ch.index with
  | some enc => decide (enc.length ≤ ch.stop - ch.start)
  | none => true

/-- A one-glyph CFF table whose single CharString calls local subroutine 107
out of 108 one-byte subroutines. -/
def cffOldLocalsC6 : CffIndex := ⟨List.range 109, List.replicate 108 11⟩

/-- The retained local-subroutine INDEX after reindexing: 216 one-byte
subroutines, so old index 107 maps to new index 215. -/
def cffNewLocalsC6 : CffIndex := ⟨List.range 217, List.replicate 216 11⟩

/-- The C6 counterexample table: one CharString `[139, 10, 14]` (push 0,
callsubr, endchar) over `cffOldLocalsC6`. -/
def cffC6 : CffTable :=
  { version := 1, globalSubrs := ⟨[], []⟩,
    charStrings := ⟨[0, 3], [139, 10, 14]⟩,
    fonts := ⟨none, [0, 1], [0], [cffOldLocalsC6]⟩ }

/-- The table `updateSubrs` produces for the C6 counterexample. -/
def cffC6Out : CffTable :=
  { version := 1, globalSubrs := ⟨[], []⟩,
    charStrings := ⟨[0, 4], [247, 0, 10, 14]⟩,
    fonts := ⟨none, [0, 1], [0], [cffNewLocalsC6]⟩ }

/-! ## Claim C5: width elision -/
/-- A byte chunk that the interpreter reads as one CharString number: the
four encodings of part_002 lines 343-359, with all bytes in range. -/
def isNumChunk (c : List Nat) : Bool :=
  c.all (fun x => decide (x < 256)) &&
    match c with
    | [] => false
    | b0 :: t =>
      (decide (32 ≤ b0) && decide (b0 ≤ 246) && t.isEmpty) ||
        (decide (b0 = 28) && decide (t.length = 2)) ||
        (decide (247 ≤ b0) && decide (b0 ≤ 254) && decide (t.length = 1)) ||
        (decide (b0 = 255) && decide (t.length = 4))

/-- A CFF1 table whose CharStrings the C5 theorems interpret directly
through `csRun`. -/
def cffC5 : CffTable := ⟨1, ⟨[], []⟩, ⟨[], []⟩, ⟨none, [], [], []⟩⟩

/-- The C5 counterexample body: 48 zero operands, `hstem`, a two-operand
`rmoveto`, and `endchar`. -/
def c5Body : List Nat := List.replicate 48 139 ++ 1 :: [150, 150, 21, 14]

/-! ## Theorems -/

theorem hmtxCompactLoop_spec (advances : List Nat) (n : Nat) :
    1 < hmtxCompactLoop advances n →
      advances.getD (hmtxCompactLoop advances n - 1) 0 ≠
        advances.getD (hmtxCompactLoop advances n - 2) 0 := by
  induction n with
  | zero => intro h; simp [hmtxCompactLoop] at h
  | succ m ih =>
    match m with
    | 0 => intro h; simp [hmtxCompactLoop] at h
    | k + 1 =>
      intro h
      by_cases hne : advances.getD (k + 1) 0 ≠ advances.getD k 0
      · simp only [hmtxCompactLoop, if_pos hne] at h ⊢
        simpa using hne
      · simp only [hmtxCompactLoop, if_neg hne] at h ⊢
        exact ih h

/-- Claim C9 (confirmed). Every `numberOfHMetrics` value installed by `Subset`
or `Merge` is produced by `compactNumberOfHMetrics` over the glyph advance
array; whenever that value exceeds 1, the advance of metric
`numberOfHMetrics - 1` differs from the advance of metric
`numberOfHMetrics - 2`, i.e. the hmtx compaction invariant holds. -/
theorem subset_merge_hmtx_compaction (advances : List Nat)
    (h : 1 < compactNumberOfHMetrics advances) :
    advances.getD (compactNumberOfHMetrics advances - 1) 0 ≠
      advances.getD (compactNumberOfHMetrics advances - 2) 0 :=
  hmtxCompactLoop_spec advances advances.length h

/-- Witness for C9 at the concrete advance array `[7, 9]`: the loop keeps both
metrics and their advances differ. -/
theorem subset_merge_hmtx_compaction_witness :
    1 < compactNumberOfHMetrics [7, 9] ∧
      [7, 9].getD (compactNumberOfHMetrics [7, 9] - 1) 0 ≠
        [7, 9].getD (compactNumberOfHMetrics [7, 9] - 2) 0 :=
  ⟨by decide, subset_merge_hmtx_compaction [7, 9] (by decide)⟩

theorem findMissingTable_missing_iff (required tags : List String) :
    (∃ t, findMissingTable required tags = some (.missingTable t)) ↔
      ∃ t ∈ required, t ∉ tags := by
  constructor
  · rintro ⟨t, ht⟩
    unfold findMissingTable at ht
    rcases hfind : required.find? (fun t => decide (t ∉ tags)) with _ | u
    · rw [hfind] at ht; exact absurd ht (by simp)
    · have hu := List.find?_some hfind
      exact ⟨u, List.mem_of_find?_eq_some hfind, of_decide_eq_true hu⟩
  · rintro ⟨t, htmem, htabs⟩
    unfold findMissingTable
    rcases hfind : required.find? (fun t => decide (t ∉ tags)) with _ | u
    · have h2 : ¬ (t ∉ tags) := by simpa using List.find?_eq_none.mp hfind t htmem
      exact absurd htabs h2
    · exact ⟨u, rfl⟩

/-- Counterexample for claim C8: a CFF-flavored tag set carrying all seven
common tables and `CFF ` but no `OS/2` table passes the check with no error,
contradicting the claim that `OS/2` belongs to the CFF required set (the claim
demands a missing-table error here). -/
theorem parseSFNTCheckTables_no_os2_counterexample :
    parseSFNTCheckTables false true
        ["cmap", "head", "hhea", "hmtx", "maxp", "name", "post", "CFF "] = none ∧
      "OS/2" ∉ (["cmap", "head", "hhea", "hmtx", "maxp", "name", "post", "CFF "] : List String) := by
  constructor
  · rfl
  · decide

/-- Claim C8 (corrected: the code never requires `OS/2`, for either flavor).
For the TrueType flavor the check reports a missing-table error exactly when
one of the nine tables cmap, head, hhea, hmtx, maxp, name, post, glyf, loca is
absent.  For the CFF flavor it reports a missing-table error exactly when
neither `CFF ` nor `CFF2` is present, or exactly one of them is present and
one of the seven tables cmap, head, hhea, hmtx, maxp, name, post is absent;
when both CFF tables are present the check reports the distinct already-exists
error regardless of the other tables. -/
theorem parseSFNTCheckTables_spec (tags : List String) :
    ((∃ t, parseSFNTCheckTables true false tags = some (.missingTable t)) ↔
      ∃ t ∈ requiredTablesCommon ++ ["glyf", "loca"], t ∉ tags) ∧
    ((∃ t, parseSFNTCheckTables false true tags = some (.missingTable t)) ↔
      ("CFF " ∉ tags ∧ "CFF2" ∉ tags) ∨
        (¬ ("CFF " ∈ tags ∧ "CFF2" ∈ tags) ∧ ∃ t ∈ requiredTablesCommon, t ∉ tags)) ∧
    (parseSFNTCheckTables false true tags = some .cffAlreadyExists ↔
      ("CFF " ∈ tags ∧ "CFF2" ∈ tags)) := by
  have hfmNotCff : ∀ required, findMissingTable required tags ≠ some .cffAlreadyExists := by
    intro required ht
    unfold findMissingTable at ht
    rcases hfind : required.find? (fun t => decide (t ∉ tags)) with _ | u <;>
      rw [hfind] at ht <;> exact absurd ht (by simp)
  refine ⟨?_, ?_, ?_⟩
  · have hval : parseSFNTCheckTables true false tags =
        findMissingTable (requiredTablesCommon ++ ["glyf", "loca"]) tags := by
      unfold parseSFNTCheckTables
      rw [if_pos rfl]
    rw [hval]
    exact findMissingTable_missing_iff (requiredTablesCommon ++ ["glyf", "loca"]) tags
  · by_cases hcff : "CFF " ∈ tags <;> by_cases hcff2 : "CFF2" ∈ tags
    · have hval : parseSFNTCheckTables false true tags = some .cffAlreadyExists := by
        unfold parseSFNTCheckTables
        rw [if_neg Bool.false_ne_true, if_pos rfl, if_neg (by simp [hcff]),
          if_pos ⟨hcff, hcff2⟩]
      rw [hval]
      constructor
      · rintro ⟨t, ht⟩; exact absurd ht (by simp)
      · rintro (⟨h1, _⟩ | ⟨h1, _⟩)
        · exact absurd hcff h1
        · exact absurd ⟨hcff, hcff2⟩ h1
    · have hval : parseSFNTCheckTables false true tags =
          findMissingTable requiredTablesCommon tags := by
        unfold parseSFNTCheckTables
        rw [if_neg Bool.false_ne_true, if_pos rfl, if_neg (by simp [hcff]),
          if_neg (by simp [hcff2])]
      rw [hval]
      rw [findMissingTable_missing_iff requiredTablesCommon tags]
      constructor
      · intro h; exact Or.inr ⟨by simp [hcff2], h⟩
      · rintro (⟨h1, _⟩ | ⟨_, h2⟩)
        · exact absurd hcff h1
        · exact h2
    · have hval : parseSFNTCheckTables false true tags =
          findMissingTable requiredTablesCommon tags := by
        unfold parseSFNTCheckTables
        rw [if_neg Bool.false_ne_true, if_pos rfl, if_neg (by simp [hcff2]),
          if_neg (by simp [hcff])]
      rw [hval]
      rw [findMissingTable_missing_iff requiredTablesCommon tags]
      constructor
      · intro h; exact Or.inr ⟨by simp [hcff], h⟩
      · rintro (⟨_, h1⟩ | ⟨_, h2⟩)
        · exact absurd hcff2 h1
        · exact h2
    · have hval : parseSFNTCheckTables false true tags =
          some (.missingTable "CFF") := by
        unfold parseSFNTCheckTables
        rw [if_neg Bool.false_ne_true, if_pos rfl, if_pos ⟨hcff, hcff2⟩]
      rw [hval]
      constructor
      · intro _; exact Or.inl ⟨hcff, hcff2⟩
      · intro _; exact ⟨"CFF", rfl⟩
  · by_cases hcff : "CFF " ∈ tags <;> by_cases hcff2 : "CFF2" ∈ tags
    · have hval : parseSFNTCheckTables false true tags = some .cffAlreadyExists := by
        unfold parseSFNTCheckTables
        rw [if_neg Bool.false_ne_true, if_pos rfl, if_neg (by simp [hcff]),
          if_pos ⟨hcff, hcff2⟩]
      rw [hval]
      simp [hcff, hcff2]
    · have hval : parseSFNTCheckTables false true tags =
          findMissingTable requiredTablesCommon tags := by
        unfold parseSFNTCheckTables
        rw [if_neg Bool.false_ne_true, if_pos rfl, if_neg (by simp [hcff]),
          if_neg (by simp [hcff2])]
      rw [hval]
      simp only [hcff2, and_false, iff_false]
      exact hfmNotCff requiredTablesCommon
    · have hval : parseSFNTCheckTables false true tags =
          findMissingTable requiredTablesCommon tags := by
        unfold parseSFNTCheckTables
        rw [if_neg Bool.false_ne_true, if_pos rfl, if_neg (by simp [hcff2]),
          if_neg (by simp [hcff])]
      rw [hval]
      simp only [hcff, false_and, iff_false]
      exact hfmNotCff requiredTablesCommon
    · have hval : parseSFNTCheckTables false true tags =
          some (.missingTable "CFF") := by
        unfold parseSFNTCheckTables
        rw [if_neg Bool.false_ne_true, if_pos rfl, if_pos ⟨hcff, hcff2⟩]
      rw [hval]
      simp [hcff, hcff2]

/-- Claim C7 (code bug).  The source intends to drop pairs touching the
secondary font's `.notdef` (its comment says "skip .notdef"), but the mask
`pair.Key&0x0F == 0 || pair.Key&0xF0 == 0` tests the two low nibbles of the
right glyph rather than the two 16-bit glyph halves.  At `origNumGlyphs = 100`:
the pair with key `0x11` (left glyph 0 = `.notdef`, right glyph 17) is kept
and offset instead of dropped, while the pair with key `0x10010` (left glyph
1, right glyph 16, no `.notdef` involved) is replaced by the zero pair.  -/
theorem mergeKernPairs_notdef_bug :
    mergeKernPairs 100 [⟨17, -30⟩] = [⟨99 * 65536 + 99 + 17, -30⟩] ∧
      mergeKernPairs 100 [⟨65552, 10⟩] = [⟨0, 0⟩] := by
  constructor <;> rfl

/-- Counterexample for claim C2: calling `Subset` with the glyph list `[5]`
(which does not contain glyph 0) retains exactly `[5]`; no `.notdef` is
prepended, so the subset font's glyph 0 is the original glyph 5. -/
theorem subsetGlyphIDs_no_notdef_counterexample :
    subsetGlyphIDs true (fun g => .ok [g]) [5] = .ok [5] ∧ ¬ (0 ∈ [5]) := by
  constructor
  · rfl
  · decide

theorem subsetAddDeps_append (ds : List Nat) (acc : List Nat) :
    ∃ extra, subsetAddDeps ds acc = acc ++ extra ∧ ∀ g ∈ extra, g ∉ acc := by
  induction ds generalizing acc with
  | nil => exact ⟨[], by simp [subsetAddDeps]⟩
  | cons d rest ih =>
    by_cases hd : d ∈ acc
    · rcases ih acc with ⟨extra, hx, hni⟩
      exact ⟨extra, by simpa [subsetAddDeps, hd] using hx, hni⟩
    · rcases ih (acc ++ [d]) with ⟨extra, hx, hni⟩
      refine ⟨d :: extra, ?_, ?_⟩
      · simpa [subsetAddDeps, hd] using hx
      · intro g hg
        rcases List.mem_cons.mp hg with hg | hg
        · simpa [hg] using hd
        · intro hgacc
          exact hni g hg (by simp [hgacc])

theorem subsetLoop_append (deps : Nat → Except String (List Nat))
    (pending acc out : List Nat) (h : subsetLoop deps pending acc = .ok out) :
    ∃ extra, out = acc ++ extra ∧ ∀ g ∈ extra, g ∉ acc := by
  induction pending generalizing acc with
  | nil =>
    refine ⟨[], ?_, by simp⟩
    simpa [subsetLoop] using h.symm
  | cons g rest ih =>
    by_cases hg : g = 0
    · simp only [subsetLoop, if_pos hg] at h
      exact ih acc h
    · simp only [subsetLoop, if_neg hg] at h
      rcases hdeps : deps g with e | ds
      · rw [hdeps] at h; exact absurd h (by simp)
      · rw [hdeps] at h
        rcases subsetAddDeps_append (ds.drop 1) acc with ⟨e1, he1, hni1⟩
        rcases ih (subsetAddDeps (ds.drop 1) acc) h with ⟨e2, he2, hni2⟩
        refine ⟨e1 ++ e2, by rw [he2, he1, List.append_assoc], ?_⟩
        intro x hx hxacc
        rcases List.mem_append.mp hx with hx1 | hx2
        · exact hni1 x hx1 hxacc
        · exact hni2 x hx2 (by rw [he1]; exact List.mem_append_left _ hxacc)

/-- Claim C2 (corrected).  `Subset` does not prepend `.notdef`: the retained
glyph-id order is exactly the caller's list, in the given order, followed by
the newly discovered composite dependencies, each of which was absent from the
caller's list.  Glyph 0 is special-cased only where it already appears in the
caller's list. -/
theorem subsetGlyphIDs_order (isTrueType : Bool)
    (deps : Nat → Except String (List Nat)) (glyphIDs out : List Nat)
    (h : subsetGlyphIDs isTrueType deps glyphIDs = .ok out) :
    ∃ extra, out = glyphIDs ++ extra ∧ ∀ g ∈ extra, g ∉ glyphIDs := by
  unfold subsetGlyphIDs at h
  rcases hTT : isTrueType with _ | _
  · rw [hTT] at h
    simp only [Bool.false_eq_true, if_false] at h
    by_cases hlen : 65535 < glyphIDs.length
    · simp [hlen] at h
    · simp only [hlen, if_false] at h
      exact ⟨[], by simpa using h.symm, by simp⟩
  · rw [hTT] at h
    simp only [if_true] at h
    rcases hloop : subsetLoop deps glyphIDs glyphIDs with e | l
    · rw [hloop] at h; exact absurd h (by simp)
    · rw [hloop] at h
      by_cases hlen : 65535 < l.length
      · simp [hlen] at h
      · simp only [hlen, if_false, Except.ok.injEq] at h
        subst h
        exact subsetLoop_append deps glyphIDs glyphIDs l hloop

/-- Witness for C2's amended order theorem: retaining `[3, 1]` where glyph 3
depends on glyph 7 appends exactly `[7]`. -/
theorem subsetGlyphIDs_order_witness :
    subsetGlyphIDs true (fun g => if g = 3 then .ok [3, 7] else .ok [g]) [3, 1] =
        .ok [3, 1, 7] ∧
      ∃ extra, ([3, 1, 7] : List Nat) = [3, 1] ++ extra ∧ ∀ g ∈ extra, g ∉ ([3, 1] : List Nat) :=
  ⟨by rfl,
    subsetGlyphIDs_order true (fun g => if g = 3 then .ok [3, 7] else .ok [g]) [3, 1]
      [3, 1, 7] (by rfl)⟩

/-- Counterexample for claim C3: merging a two-glyph TrueType font into a
TrueType receiver that lacks a glyf table returns a non-nil error, yet the
receiver has already been mutated: its parsed maxp glyph count and the raw
maxp bytes now read 3 instead of 2.  `Merge` is not transactional. -/
theorem mergePrefix_not_transactional :
    mergePrefix mergeReceiverEx mergeSecondaryEx =
        .err { mergeReceiverEx with
                 maxpNumGlyphs := 3
                 maxpTable := some [0, 1, 0, 0, 0, 3] }
          "glyf of loca tables missing" ∧
      ({ mergeReceiverEx with
           maxpNumGlyphs := 3
           maxpTable := some [0, 1, 0, 0, 0, 3] } : MergeSFNT) ≠ mergeReceiverEx := by
  constructor
  · rfl
  · decide

/-- Claim C3 (corrected).  Only the early parameter checks of `Merge` leave
the receiver untouched: a flavor mismatch or a glyph-count overflow errors out
with the receiver exactly as it was, and a trivial secondary returns nil with
the receiver untouched.  Any later error (the counterexample uses the
glyf/loca presence check; the cmap-collision error lies even further along)
can leave the receiver partially modified, the maxp table already rewritten. -/
theorem mergePrefix_early_checks_untouched (sfnt sfnt2 : MergeSFNT)
    (h : sfnt.isTrueType ≠ sfnt2.isTrueType ∨ sfnt.isCFF ≠ sfnt2.isCFF ∨
          65535 - sfnt.numGlyphs < sfnt2.numGlyphs ∨ sfnt2.numGlyphs < 2) :
    mergePrefix sfnt sfnt2 = .err sfnt "can only merge two TrueType or two CFF fonts" ∨
      mergePrefix sfnt sfnt2 = .err sfnt "too many glyphs for one font" ∨
      mergePrefix sfnt sfnt2 = .done sfnt := by
  by_cases h1 : sfnt.isTrueType ≠ sfnt2.isTrueType ∨ sfnt.isCFF ≠ sfnt2.isCFF
  · exact Or.inl (by unfold mergePrefix; rw [if_pos h1])
  · by_cases h2 : 65535 - sfnt.numGlyphs < sfnt2.numGlyphs
    · refine Or.inr (Or.inl ?_)
      unfold mergePrefix
      rw [if_neg h1, if_pos h2]
    · by_cases h3 : sfnt2.numGlyphs < 2
      · refine Or.inr (Or.inr ?_)
        unfold mergePrefix
        rw [if_neg h1, if_neg h2, if_pos h3]
      · rcases h with h | h | h | h
        · exact absurd (Or.inl h) h1
        · exact absurd (Or.inr h) h1
        · exact absurd h h2
        · exact absurd h h3

/-- Witness for C3's amended theorem: merging a CFF font into a TrueType
receiver fails the flavor check and leaves the receiver untouched. -/
theorem mergePrefix_early_checks_untouched_witness :
    (mergeReceiverEx.isTrueType ≠ false ∨ mergeReceiverEx.isCFF ≠ true ∨
        65535 - mergeReceiverEx.numGlyphs < 2 ∨ (2 : Nat) < 2) ∧
      (mergePrefix mergeReceiverEx
          { mergeSecondaryEx with isTrueType := false, isCFF := true } =
            .err mergeReceiverEx "can only merge two TrueType or two CFF fonts" ∨
        mergePrefix mergeReceiverEx
          { mergeSecondaryEx with isTrueType := false, isCFF := true } =
            .err mergeReceiverEx "too many glyphs for one font" ∨
        mergePrefix mergeReceiverEx
          { mergeSecondaryEx with isTrueType := false, isCFF := true } =
            .done mergeReceiverEx) :=
  ⟨by decide,
    mergePrefix_early_checks_untouched mergeReceiverEx
      { mergeSecondaryEx with isTrueType := false, isCFF := true } (by decide)⟩

/-- Claim C10 (code bug).  The example subtable satisfies every structural
constraint `parseCmap` enforces (the parser checks the glyph-array index only
at each segment's end code), yet `Get` at rune 0 computes the index
`2/2 + (0 - 0) - (2 - 0) = -1` and Go panics indexing `GlyphIdArray[-1]` -
contradicting the claim that `cmapTable.Get` is total and the source comment
"index is always valid".  The panic propagates through `cmapTable.Get`. -/
theorem cmapFormat4Get_panic_bug :
    cmapFormat4Check 1 cmapFormat4Ex = true ∧
      cmapFormat4Get cmapFormat4Ex 0 = none ∧
      cmapTableGet [cmapFormat4Get cmapFormat4Ex] 0 = none := by
  refine ⟨by decide, ?_, ?_⟩ <;> rfl

/-! ### Checksum arithmetic lemmas -/
theorem calcChecksum_eq_sum_mod (b : List Nat) :
    calcChecksum b = (toWords b).sum % 4294967296 := by
  have hgen : ∀ (l : List Nat) (s : Nat),
      l.foldl (fun sum w => (sum + w) % 4294967296) (s % 4294967296) =
        (s + l.sum) % 4294967296 := by
    intro l
    induction l with
    | nil => intro s; simp
    | cons w rest ih =>
      intro s
      simp only [List.foldl_cons, List.sum_cons]
      rw [Nat.mod_add_mod, ih (s + w)]
      ring_nf
  have := hgen (toWords b) 0
  simpa [calcChecksum] using this

theorem toWords_append_of_mod (a b : List Nat) (h : a.length % 4 = 0) :
    toWords (a ++ b) = toWords a ++ toWords b := by
  match a with
  | [] => simp [toWords]
  | [x] => simp at h
  | [x, y] => simp at h
  | [x, y, z] => simp at h
  | b0 :: b1 :: b2 :: b3 :: rest =>
    simp only [List.cons_append, toWords, List.append_eq]
    rw [toWords_append_of_mod rest b (by simp at h; omega)]

theorem toWords_be32Bytes (v : Nat) : toWords (be32Bytes v) = [v % 4294967296] := by
  simp only [be32Bytes, toWords, be32]
  congr 1
  omega

theorem pad4_length_mod (d : List Nat) : (pad4 d).length % 4 = 0 := by
  simp only [pad4, List.length_append, List.length_replicate]
  omega

theorem setAt_take (b : List Nat) (i k : Nat) (v : List Nat) (h : k ≤ i)
    (h2 : i ≤ b.length) : (setAt b i v).take k = b.take k := by
  simp only [setAt]
  rw [List.take_append_of_le_length (by simp [List.length_take]; omega)]
  rw [List.take_append_of_le_length (by simp [List.length_take]; omega)]
  rw [List.take_take]
  congr 1
  omega

theorem setAt_length (b : List Nat) (i : Nat) (v : List Nat)
    (h : i + v.length ≤ b.length) : (setAt b i v).length = b.length := by
  simp only [setAt, List.length_append, List.length_take, List.length_drop]
  omega

/-! ### Structural lemmas for the assembly -/
theorem insertTable_perm (t : W2Table) (l : List W2Table) :
    (insertTable t l).Perm (t :: l) := by
  induction l with
  | nil => simp [insertTable]
  | cons u rest ih =>
    by_cases hle : t.tag ≤ u.tag
    · simp [insertTable, hle]
    · simp only [insertTable, if_neg hle]
      exact (ih.cons u).trans (List.Perm.swap t u rest)

theorem sortTables_perm (l : List W2Table) : (sortTables l).Perm l := by
  induction l with
  | nil => simp [sortTables]
  | cons t rest ih =>
    exact (insertTable_perm t (sortTables rest)).trans (List.Perm.cons t ih)

theorem w2Entries_spec (ts : List W2Table) (off : Nat) (dir body : List Nat)
    (h : w2Entries off ts = some (dir, body)) :
    body = (ts.map (fun t => pad4 t.data)).flatten ∧
      dir.length = 16 * ts.length ∧
      ∀ i < ts.length, (dir.drop (16 * i)).take 16 =
        be32Bytes (ts.getD i default).tag ++
          be32Bytes (calcChecksum (pad4 (ts.getD i default).data)) ++
          be32Bytes (off + ((ts.take i).map (fun t => (pad4 t.data).length)).sum) ++
          be32Bytes (ts.getD i default).data.length := by
  induction ts generalizing off dir body with
  | nil =>
    simp only [w2Entries, Option.some.injEq, Prod.mk.injEq] at h
    rcases h with ⟨h1, h2⟩
    refine ⟨by simp [← h2], by simp [← h1], by intro i hi; simp at hi⟩
  | cons t rest ih =>
    simp only [w2Entries] at h
    by_cases hov : 4294967295 < t.data.length + (4 - t.data.length % 4) % 4 + off
    · rw [if_pos hov] at h; exact absurd h (by simp)
    · rw [if_neg hov] at h
      rcases hrec : w2Entries (off + (pad4 t.data).length) rest with _ | p
      · rw [hrec] at h; exact absurd h (by simp)
      · rcases p with ⟨dir1, body1⟩
        rw [hrec] at h
        rcases ih (off + (pad4 t.data).length) dir1 body1 hrec with ⟨hb, hd, hdir⟩
        simp only [Option.some.injEq, Prod.mk.injEq] at h
        rcases h with ⟨hdir0, hbody0⟩
        have h16 : (be32Bytes t.tag ++ be32Bytes (calcChecksum (pad4 t.data)) ++
            be32Bytes off ++ be32Bytes t.data.length).length = 16 := by
          simp [be32Bytes]
        refine ⟨by simp [← hbody0, hb], ?_, ?_⟩
        · rw [← hdir0]
          simp only [List.length_append, List.length_cons, hd, h16]
          ring
        · intro i hi
          match i with
          | 0 =>
            simp only [← hdir0, List.getD_cons_zero, List.take_zero, List.map_nil,
              List.sum_nil, Nat.add_zero, List.drop_zero, Nat.mul_zero]
            rw [List.take_append_of_le_length (by rw [h16])]
            rw [List.take_of_length_le (by rw [h16])]
          | j + 1 =>
            have hj : j < rest.length := by simpa using hi
            have hrecdir := hdir j hj
            simp only [← hdir0, List.getD_cons_succ]
            rw [show 16 * (j + 1) = (be32Bytes t.tag ++ be32Bytes (calcChecksum (pad4 t.data)) ++
                be32Bytes off ++ be32Bytes t.data.length).length + 16 * j by rw [h16]; ring]
            rw [List.drop_append (16 * j)]
            rw [hrecdir]
            congr 3
            simp only [List.take_succ_cons, List.map_cons, List.sum_cons]
            ring

theorem headBodyOffset_split (ts : List W2Table) (acc hoff : Nat)
    (h : headBodyOffset acc ts = some hoff) :
    ∃ pre tH post, ts = pre ++ tH :: post ∧ tH.tag = tagHead ∧
      hoff = acc + (pre.map (fun t => (pad4 t.data).length)).sum := by
  induction ts generalizing acc with
  | nil => exact absurd h (by simp [headBodyOffset])
  | cons t rest ih =>
    by_cases ht : t.tag = tagHead
    · simp only [headBodyOffset, if_pos ht, Option.some.injEq] at h
      exact ⟨[], t, rest, by simp, ht, by simp [h]⟩
    · simp only [headBodyOffset, if_neg ht] at h
      rcases ih (acc + (pad4 t.data).length) h with ⟨pre, tH, post, hts, htag, hoffeq⟩
      refine ⟨t :: pre, tH, post, by simp [hts], htag, ?_⟩
      simp only [List.map_cons, List.sum_cons]
      omega

theorem toWords_sum_append (a b : List Nat) (h : a.length % 4 = 0) :
    (toWords (a ++ b)).sum = (toWords a).sum + (toWords b).sum := by
  rw [toWords_append_of_mod a b h, List.sum_append]

theorem flatten_pad4_length_mod (ts : List W2Table) :
    ((ts.map (fun t => pad4 t.data)).flatten).length % 4 = 0 := by
  induction ts with
  | nil => simp
  | cons t rest ih =>
    simp only [List.map_cons, List.flatten_cons, List.length_append]
    have := pad4_length_mod t.data
    omega

/-- Claim C1 (confirmed).  For every input accepted by the final assembly
stage of `ParseWOFF2`, the returned SFNT byte stream `out` satisfies
`calcChecksum out = 0xB1B0AFBA` (the `head.checkSumAdjustment` patch makes the
whole-file big-endian 32-bit sum come out to the magic constant), and every
16-byte record of the emitted directory carries, in its second word, exactly
the checksum of the corresponding table's zero-padded bytes (the head table's
bytes taken with its `checkSumAdjustment` field zeroed, as the code computes
them), together with the table's offset and unpadded length.  The tag-Nodup
hypothesis reflects the duplicate-tag rejection of the directory parser
(woff2.go lines 138-140). -/
theorem woff2Assemble_checksums (flavor totalSfntSize : Nat) (tables : List W2Table)
    (out : List Nat) (hnd : (tables.map W2Table.tag).Nodup)
    (h : woff2Assemble flavor totalSfntSize tables = some out) :
    calcChecksum out = 0xB1B0AFBA ∧
      ∀ i < tables.length,
        (out.drop (12 + 16 * i)).take 16 =
          be32Bytes ((sortTables (w2ZeroHead tables)).getD i default).tag ++
            be32Bytes (calcChecksum
              (pad4 ((sortTables (w2ZeroHead tables)).getD i default).data)) ++
            be32Bytes (12 + 16 * tables.length +
              (((sortTables (w2ZeroHead tables)).take i).map
                (fun t => (pad4 t.data).length)).sum) ++
            be32Bytes ((sortTables (w2ZeroHead tables)).getD i default).data.length := by
  unfold woff2Assemble at h
  rcases hfind : tables.find? (fun t => t.tag == tagHead) with _ | headT
  · rw [hfind] at h; exact absurd h (by simp)
  rw [hfind] at h
  simp only [] at h
  by_cases hlen : headT.data.length < 18
  · rw [if_pos hlen] at h; exact absurd h (by simp)
  rw [if_neg hlen] at h
  by_cases hflag : ((setAt headT.data 8 [0, 0, 0, 0]).getD 16 0 % 256 * 256 +
      (setAt headT.data 8 [0, 0, 0, 0]).getD 17 0 % 256) &&& 2048 = 0
  · rw [if_pos hflag] at h; exact absurd h (by simp)
  rw [if_neg hflag] at h
  by_cases hdsig : tables.any (fun t => t.tag == tagDSIG)
  · rw [if_pos hdsig] at h; exact absurd h (by simp)
  rw [if_neg hdsig] at h
  by_cases hmem : 30 * 1024 * 1024 < totalSfntSize
  · rw [if_pos hmem] at h; exact absurd h (by simp)
  rw [if_neg hmem] at h
  set numTables := tables.length with hnum
  set sorted := sortTables (w2ZeroHead tables) with hsortdef
  set header := be32Bytes flavor ++ be16Bytes (u16 numTables) ++
    be16Bytes (u16 ((w2SearchRangeLoop numTables 17 1 0).1 * 16)) ++
    be16Bytes (u16 (w2SearchRangeLoop numTables 17 1 0).2) ++
    be16Bytes (u16sub (numTables * 16) ((w2SearchRangeLoop numTables 17 1 0).1 * 16))
    with hheaderdef
  rcases hent : w2Entries (12 + 16 * numTables) sorted with _ | p
  · rw [hent] at h; exact absurd h (by simp)
  rcases p with ⟨dir, body⟩
  rw [hent] at h
  rcases hhoff : headBodyOffset 0 sorted with _ | hoff
  · rw [hhoff] at h; exact absurd h (by simp)
  rw [hhoff] at h
  simp only [Option.some.injEq] at h
  -- name the buffer and the patch position
  set buf := header ++ dir ++ body with hbufdef
  set iAdj := 12 + 16 * numTables + hoff + 8 with hiadjdef
  have hout : out = setAt buf iAdj (be32Bytes (u32sub 0xB1B0AFBA (calcChecksum buf))) :=
    h.symm
  -- structural facts
  have hheaderlen : header.length = 12 := by
    simp [hheaderdef, be32Bytes, be16Bytes]
  have hsortperm : sorted.Perm (w2ZeroHead tables) := sortTables_perm _
  have hsortlen : sorted.length = numTables := by
    rw [hsortperm.length_eq]
    simp [w2ZeroHead, hnum]
  rcases w2Entries_spec sorted (12 + 16 * numTables) dir body hent with
    ⟨hbody, hdirlen, hdirentry⟩
  rcases headBodyOffset_split sorted 0 hoff hhoff with ⟨pre, tH, post, hsplit, htag, hoffeq⟩
  -- the head element of the sorted list is the zeroed head table
  have hheadmem : headT ∈ tables := List.mem_of_find?_eq_some hfind
  have hheadtag : headT.tag = tagHead := by
    have := List.find?_some hfind
    simpa using this
  have htHmem : tH ∈ w2ZeroHead tables := by
    refine hsortperm.subset ?_
    rw [hsplit]
    exact List.mem_append_right _ (List.mem_cons_self _ _)
  rcases List.mem_map.mp htHmem with ⟨t0, ht0mem, ht0eq⟩
  have ht0tag : t0.tag = tagHead := by
    by_cases hc : t0.tag = tagHead
    · exact hc
    · rw [if_neg hc] at ht0eq
      rw [ht0eq] at hc
      exact absurd htag hc
  have ht0headT : t0 = headT :=
    List.inj_on_of_nodup_map hnd ht0mem hheadmem (by rw [ht0tag, hheadtag])
  have htHdata : tH.data = setAt headT.data 8 [0, 0, 0, 0] := by
    rw [if_pos ht0tag] at ht0eq
    rw [← ht0eq, ht0headT]
  have htHdatalen : tH.data.length = headT.data.length := by
    rw [htHdata]
    exact setAt_length headT.data 8 [0, 0, 0, 0] (by simp; omega)
  -- decompose the body around the head table
  have hbodysplit : body = (pre.map (fun t => pad4 t.data)).flatten ++
      (pad4 tH.data ++ (post.map (fun t => pad4 t.data)).flatten) := by
    rw [hbody, hsplit]
    simp
  have hprelen : ((pre.map (fun t => pad4 t.data)).flatten).length = hoff := by
    rw [List.length_flatten, List.map_map, hoffeq]
    simp [Function.comp_def]
  have hpremod : hoff % 4 = 0 := by
    have := flatten_pad4_length_mod pre
    rw [hprelen] at this
    exact this
  -- the four zero bytes sitting at the patch position
  have hzd : pad4 tH.data = (headT.data.take 8 ++ [0, 0, 0, 0]) ++
      (headT.data.drop 12 ++ List.replicate ((4 - tH.data.length % 4) % 4) 0) := by
    rw [pad4, htHdatalen, htHdata, setAt]
    simp [List.append_assoc]
  have htake8len : (headT.data.take 8).length = 8 := by
    rw [List.length_take]
    omega
  -- buffer decomposition  buf = P ++ [0,0,0,0] ++ Q
  set Q := headT.data.drop 12 ++ List.replicate ((4 - tH.data.length % 4) % 4) 0 ++
    (post.map (fun t => pad4 t.data)).flatten with hQdef
  set P := header ++ dir ++ (pre.map (fun t => pad4 t.data)).flatten ++
    headT.data.take 8 with hPdef
  have hbufPQ : buf = P ++ ([0, 0, 0, 0] ++ Q) := by
    rw [hbufdef, hbodysplit, hzd, hPdef, hQdef]
    simp [List.append_assoc]
  have hPlen : P.length = iAdj := by
    rw [hPdef, hiadjdef]
    simp only [List.length_append, hheaderlen, hdirlen, hsortlen, hprelen, htake8len]
    try omega
  have hPmod : P.length % 4 = 0 := by
    rw [hPlen, hiadjdef]
    omega
  -- the patch rewrites exactly the four zero bytes
  have hvlen : (be32Bytes (u32sub 0xB1B0AFBA (calcChecksum buf))).length = 4 := by
    simp [be32Bytes]
  have htk : buf.take iAdj = P := by
    rw [hbufPQ, ← hPlen]
    exact List.take_left P _
  have hdp : buf.drop (iAdj + 4) = Q := by
    rw [hbufPQ, ← hPlen, List.drop_append 4]
    simp
  have houtPQ : out = P ++ (be32Bytes (u32sub 0xB1B0AFBA (calcChecksum buf)) ++ Q) := by
    rw [hout]
    simp only [setAt]
    rw [hvlen, htk, hdp, List.append_assoc]
  -- checksum computation
  have hWbuf : (toWords buf).sum = (toWords P).sum + (toWords Q).sum := by
    rw [hbufPQ, toWords_sum_append _ _ hPmod]
    rw [show toWords ([0, 0, 0, 0] ++ Q) = toWords [0, 0, 0, 0] ++ toWords Q from
      toWords_append_of_mod _ _ (by simp)]
    simp [toWords, be32]
  have hWout : (toWords out).sum = (toWords P).sum +
      ((u32sub 0xB1B0AFBA (calcChecksum buf)) % 4294967296 + (toWords Q).sum) := by
    rw [houtPQ, toWords_sum_append _ _ hPmod]
    rw [show toWords (be32Bytes (u32sub 0xB1B0AFBA (calcChecksum buf)) ++ Q) =
        toWords (be32Bytes (u32sub 0xB1B0AFBA (calcChecksum buf))) ++ toWords Q from
      toWords_append_of_mod _ _ (by simp [be32Bytes])]
    rw [toWords_be32Bytes]
    simp
  constructor
  · rw [calcChecksum_eq_sum_mod, hWout]
    rw [calcChecksum_eq_sum_mod, hWbuf]
    unfold u32sub
    omega
  · -- directory records are left intact by the final patch
    intro i hi
    have hs16 : 12 + 16 * i + 16 ≤ 12 + 16 * numTables := by omega
    have hbuflen : 12 + 16 * numTables ≤ buf.length := by
      rw [hbufdef]
      simp only [List.length_append, hheaderlen, hdirlen, hsortlen]
      omega
    have hiadjle : 12 + 16 * numTables ≤ iAdj := by rw [hiadjdef]; omega
    have hiadjlen : iAdj ≤ buf.length := by
      rw [← hPlen, hbufPQ]
      simp
    have houttake : out.take (12 + 16 * numTables) = buf.take (12 + 16 * numTables) := by
      rw [hout]
      exact setAt_take buf iAdj (12 + 16 * numTables) _ hiadjle hiadjlen
    have hslice : (out.drop (12 + 16 * i)).take 16 = (buf.drop (12 + 16 * i)).take 16 := by
      rw [List.take_drop, List.take_drop]
      have h1 : out.take (12 + 16 * i + 16) =
          (out.take (12 + 16 * numTables)).take (12 + 16 * i + 16) := by
        rw [List.take_take]
        congr 1
        omega
      have h2 : buf.take (12 + 16 * i + 16) =
          (buf.take (12 + 16 * numTables)).take (12 + 16 * i + 16) := by
        rw [List.take_take]
        congr 1
        omega
      rw [h1, h2, houttake]
    rw [hslice]
    have hdrop : buf.drop (12 + 16 * i) = dir.drop (16 * i) ++ body := by
      rw [hbufdef, List.append_assoc]
      rw [show 12 + 16 * i = header.length + 16 * i by rw [hheaderlen]]
      rw [List.drop_append (16 * i)]
      rw [List.drop_append_of_le_length (by rw [hdirlen, hsortlen]; omega)]
    rw [hdrop]
    rw [List.take_append_of_le_length (by simp [hdirlen, hsortlen]; omega)]
    have := hdirentry i (by rw [hsortlen]; exact hi)
    rw [this]

/-- Witness for C1: assembling a single 18-byte head table (flags bit 11 set)
succeeds and satisfies both checksum conclusions. -/
theorem woff2Assemble_checksums_witness :
    ∃ out, woff2Assemble 65536 48
        [⟨tagHead, [0, 1, 0, 0, 0, 0, 0, 0, 9, 9, 9, 9, 0, 0, 0, 0, 8, 0]⟩] = some out ∧
      calcChecksum out = 0xB1B0AFBA := by
  match hout : woff2Assemble 65536 48
      [⟨tagHead, [0, 1, 0, 0, 0, 0, 0, 0, 9, 9, 9, 9, 0, 0, 0, 0, 8, 0]⟩] with
  | none => exact absurd hout (by decide)
  | some out =>
    exact ⟨out, rfl,
      (woff2Assemble_checksums 65536 48
        [⟨tagHead, [0, 1, 0, 0, 0, 0, 0, 0, 9, 9, 9, 9, 0, 0, 0, 0, 8, 0]⟩]
        out (by decide) hout).1⟩

/-! ## Claim C4: subroutine biasing and failure conditions -/
theorem cffCharStringSubrsBias_cast (n : Nat) :
    (cffCharStringSubrsBias n : Int) =
      if n < 1240 then 107 else if n < 33900 then 1131 else 32768 := by
  unfold cffCharStringSubrsBias
  by_cases h1 : n < 1240 <;> by_cases h2 : n < 33900 <;> simp [h1, h2]

/-- Claim C4 (confirmed).  With the subroutine INDEX that `getSubroutine`
selects for the call kind (`callsubr` = 10 uses the glyph's local INDEX,
`callgsubr` = 29 the global INDEX), the operand is resolved to the effective
index `operand + bias(n)` where `n` is the INDEX size and `bias` is exactly
`cffCharStringSubrsBias` (107 for `n < 1240`, 1131 for `n < 33900`, else
32768; the operand is the stack value's integer part, Go's arithmetic right
shift by 16).  The call succeeds at that index when it is in `[0, 65535]`,
a subroutine exists there, and that subroutine is no longer than 65535 bytes;
and it fails with a bad-subroutine-index error (`bad index` / `doesn't
exist`) exactly when the effective index is outside `[0, 65535]` or no
subroutine exists at it. -/
theorem cffGetSubroutine_spec (cff : CffTable) (glyphID : Nat) (b0 v : Int)
    (subrs : CffIndex)
    (hsubrs : (if b0 = 10 then cff.fonts.getLocalSubrs glyphID
               else some cff.globalSubrs) = some subrs) :
    (∀ subr, 0 ≤ Int.fdiv v 65536 + cffCharStringSubrsBias subrs.len →
        Int.fdiv v 65536 + cffCharStringSubrsBias subrs.len ≤ 65535 →
        subrs.get (Int.fdiv v 65536 + cffCharStringSubrsBias subrs.len).toNat = some subr →
        subr.length ≤ 65535 →
        cffGetSubroutine cff glyphID b0 v =
          .ok (Int.fdiv v 65536 + cffCharStringSubrsBias subrs.len, subr)) ∧
    ((∃ g i, cffGetSubroutine cff glyphID b0 v = .error (.badSubrIndex g i) ∨
        cffGetSubroutine cff glyphID b0 v = .error (.subrNotExist g i)) ↔
      (Int.fdiv v 65536 + cffCharStringSubrsBias subrs.len < 0 ∨
        65535 < Int.fdiv v 65536 + cffCharStringSubrsBias subrs.len ∨
        subrs.get (Int.fdiv v 65536 + cffCharStringSubrsBias subrs.len).toNat = none)) := by
  have hbias := cffCharStringSubrsBias_cast subrs.len
  have hval : cffGetSubroutine cff glyphID b0 v =
      (let index : Int := Int.fdiv v 65536 + cffCharStringSubrsBias subrs.len
       if index < 0 ∨ 65535 < index then .error (.badSubrIndex (b0 ≠ 10) index)
       else
         match subrs.get index.toNat with
         | none => .error (.subrNotExist (b0 ≠ 10) index)
         | some subr =>
           if 65535 < subr.length then .error (.subrTooLong (b0 ≠ 10) index)
           else .ok (index, subr)) := by
    unfold cffGetSubroutine
    rw [hsubrs]
    rw [hbias]
  rw [hval]
  simp only []
  constructor
  · intro subr h0 h1 hget hlen
    rw [if_neg (by omega), hget]
    dsimp only
    rw [if_neg (by omega)]
  · by_cases hrange : Int.fdiv v 65536 + (cffCharStringSubrsBias subrs.len : Int) < 0 ∨
        65535 < Int.fdiv v 65536 + (cffCharStringSubrsBias subrs.len : Int)
    · rw [if_pos hrange]
      constructor
      · intro _
        rcases hrange with h | h
        · exact Or.inl h
        · exact Or.inr (Or.inl h)
      · intro _
        exact ⟨decide (b0 ≠ 10), _, Or.inl rfl⟩
    · rw [if_neg hrange]
      rcases hget : subrs.get (Int.fdiv v 65536 +
          (cffCharStringSubrsBias subrs.len : Int)).toNat with _ | subr
      · dsimp only
        constructor
        · intro _; exact Or.inr (Or.inr rfl)
        · intro _; exact ⟨decide (b0 ≠ 10), _, Or.inr rfl⟩
      · dsimp only
        by_cases hlen : 65535 < subr.length
        · rw [if_pos hlen]
          constructor
          · rintro ⟨g, i, h | h⟩ <;> exact absurd h (by simp)
          · rintro (h | h | h)
            · omega
            · omega
            · exact absurd h (by simp)
        · rw [if_neg hlen]
          constructor
          · rintro ⟨g, i, h | h⟩ <;> exact absurd h (by simp)
          · rintro (h | h | h)
            · omega
            · omega
            · exact absurd h (by simp)

/-- Witness for C4: a global-subroutine call into a one-element INDEX with
operand `-107 · 2^16` resolves to effective index 0 and succeeds, and the
failure equivalence holds (both sides false). -/
theorem cffGetSubroutine_spec_witness :
    (if (29 : Int) = 10 then
        (CffTable.mk 1 ⟨[0, 1], [11]⟩ ⟨[], []⟩ ⟨none, [], [], []⟩).fonts.getLocalSubrs 0
      else some (CffTable.mk 1 ⟨[0, 1], [11]⟩ ⟨[], []⟩ ⟨none, [], [], []⟩).globalSubrs) =
        some ⟨[0, 1], [11]⟩ ∧
      cffGetSubroutine (CffTable.mk 1 ⟨[0, 1], [11]⟩ ⟨[], []⟩ ⟨none, [], [], []⟩) 0 29
          (-7012352) = .ok (0, [11]) := by
  refine ⟨by decide, ?_⟩
  have h := (cffGetSubroutine_spec (CffTable.mk 1 ⟨[0, 1], [11]⟩ ⟨[], []⟩ ⟨none, [], [], []⟩)
    0 29 (-7012352) ⟨[0, 1], [11]⟩ (by decide)).1 [11] (by decide) (by decide)
    (by decide) (by decide)
  have hidx : Int.fdiv (-7012352) 65536 +
      (cffCharStringSubrsBias (CffIndex.mk [0, 1] [11]).len : Int) = 0 := by decide
  rw [hidx] at h
  exact h

/-- The change-application loop never grows the data beyond the bytes already
accumulated plus the bytes still to copy, provided every encoding fits its
span. -/
theorem cffApplyChangesSorted_length (idx : CffIndex) (chs : List SubrChange) :
    ∀ (k offset : Nat) (diff : Int) (acc offs : List Nat),
      changesChained idx.data.length offset chs = true →
      chs.all encFits = true →
      ∀ out, cffApplyChangesSorted idx chs k offset diff acc offs = Except.ok out →
        out.data.length ≤ acc.length + (idx.data.length - offset) := by
  induction chs with
  | nil =>
    intro k offset diff acc offs _ _ out hout
    simp only [cffApplyChangesSorted] at hout
    injection hout with h
    subst h
    simp
  | cons ch rest ih =>
    intro k offset diff acc offs hwf henc out hout
    simp only [changesChained, Bool.and_eq_true, decide_eq_true_eq] at hwf
    obtain ⟨⟨⟨hw1, hw2⟩, hw3⟩, hwrest⟩ := hwf
    simp only [List.all_cons, Bool.and_eq_true] at henc
    obtain ⟨hfit, hencrest⟩ := henc
    rcases hbo : bumpOffsets offs.length offs k diff ch.start with ⟨offs1, k1⟩
    rcases hen : cffEncodeSubrNum ch.index with _ | enc
    · simp only [cffApplyChangesSorted, hbo, hen] at hout
      exact absurd hout (by simp)
    · simp only [cffApplyChangesSorted, hbo, hen] at hout
      have hlen : enc.length ≤ ch.stop - ch.start := by
        simp only [encFits, hen, decide_eq_true_eq] at hfit
        exact hfit
      have hrec := ih k1 ch.stop
        (diff + (enc.length : Int) - ((ch.stop : Int) - (ch.start : Int)))
        (acc ++ (idx.data.drop offset).take (ch.start - offset) ++ enc) offs1
        hwrest hencrest out hout
      simp only [List.length_append, List.length_take, List.length_drop] at hrec
      omega

/-- C6: corrected.  The rewrite can grow a buffer in general (see the
counterexample), but whenever every recorded change's new-number encoding is
no longer than the byte span it replaces — the condition the spec's
parenthetical appeals to — applying the changes to an INDEX never grows its
data: for sorted, chained, in-bounds changes the rewritten data is at most as
long as the original. -/
theorem cffApplyChanges_no_growth (idx : CffIndex) (changes : List SubrChange)
    (hwf : changesChained idx.data.length 0 (sortChanges changes) = true)
    (henc : (sortChanges changes).all encFits = true)
    (out : CffIndex) (hout : cffApplyChanges idx changes = Except.ok out) :
    out.data.length ≤ idx.data.length := by
  have h := cffApplyChangesSorted_length idx (sortChanges changes) 1 0 0 [] idx.offset
    hwf henc out hout
  simpa using h

/-- Witness for C6: applying the in-range change `⟨0, 1, 0⟩` to the
three-byte CharString INDEX leaves its length at three. -/
theorem cffApplyChanges_no_growth_witness :
    ∃ out, cffApplyChanges ⟨[0, 3], [139, 10, 14]⟩ [⟨0, 1, 0⟩] = Except.ok out ∧
      out.data.length ≤ 3 := by
  have hout : cffApplyChanges ⟨[0, 3], [139, 10, 14]⟩ [⟨0, 1, 0⟩] =
      Except.ok ⟨[0, 3], [139, 10, 14]⟩ := by rfl
  exact ⟨⟨[0, 3], [139, 10, 14]⟩, hout,
    cffApplyChanges_no_growth ⟨[0, 3], [139, 10, 14]⟩ [⟨0, 1, 0⟩]
      (by decide) (by decide) ⟨[0, 3], [139, 10, 14]⟩ hout⟩

/-- C6 counterexample: remapping local subroutine 107 to 215 (both biases
107) rewrites the call operand from the one-byte encoding of 0 to the
two-byte encoding of 108, so `updateSubrs` grows the CharString INDEX from
three to four bytes — the rewrite can grow a buffer. -/
theorem cffUpdateSubrs_growth_counterexample :
    cffC6.charStrings.data.length = 3 ∧
      ∃ out, cffUpdateSubrs cffC6 [(107, 215)] [] cffNewLocalsC6 ⟨[], []⟩ 100 =
          some (Except.ok out) ∧ out.charStrings.data.length = 4 := by
  exact ⟨rfl, cffC6Out, by rfl, rfl⟩

/-- Reading a number chunk consumes exactly the chunk: the first byte takes
the number path of the interpreter, and `cffReadCharStringNumber` leaves
precisely the bytes after the chunk. -/
theorem isNumChunk_read (c rest : List Nat) (hc : isNumChunk c = true) :
    c ≠ [] ∧ ∃ b0 v, b0 < 256 ∧
      csReadByte (c ++ rest) = (b0, c.tail ++ rest) ∧ (32 ≤ b0 ∨ b0 = 28) ∧
      cffReadCharStringNumber (c.tail ++ rest) (b0 : Int) = (v, rest) := by
  match c with
  | [] => exact absurd hc (by decide)
  | b0 :: t =>
    refine ⟨by simp, ?_⟩
    simp only [isNumChunk, Bool.and_eq_true, Bool.or_eq_true, decide_eq_true_eq,
      List.all_eq_true, List.isEmpty_iff] at hc
    obtain ⟨hall, hcases⟩ := hc
    have hb0 : b0 < 256 := hall b0 (List.mem_cons_self b0 t)
    have hmod : b0 % 256 = b0 := Nat.mod_eq_of_lt hb0
    rcases hcases with ((⟨⟨h32, h246⟩, ht⟩ | ⟨h28, ht⟩) | ⟨⟨h247, h254⟩, ht⟩) | ⟨h255, ht⟩
    · subst ht
      refine ⟨b0, ((b0 : Int) - 139) * 65536, hb0, ?_, Or.inl h32, ?_⟩
      · simp [csReadByte, hmod]
      · simp only [List.tail_cons, List.nil_append]
        unfold cffReadCharStringNumber
        rw [if_neg (by omega), if_pos (by omega)]
    · subst h28
      rcases t with _ | ⟨t1, t⟩
      · simp at ht
      rcases t with _ | ⟨t2, t⟩
      · simp at ht
      have ht' : t = [] := by
        have : t.length = 0 := by simpa using ht
        simpa [List.length_eq_zero] using this
      subst ht'
      exact ⟨28, _, hb0, by simp [csReadByte], Or.inr rfl, rfl⟩
    · rcases t with _ | ⟨t1, t⟩
      · simp at ht
      have ht' : t = [] := by
        have : t.length = 0 := by simpa using ht
        simpa [List.length_eq_zero] using this
      subst ht'
      have ht1 : t1 % 256 = t1 := Nat.mod_eq_of_lt (hall t1 (by simp))
      rcases Nat.lt_or_ge b0 251 with h | h
      · refine ⟨b0, (((b0 : Int) - 247) * 256 + (t1 : Int) + 108) * 65536, hb0, ?_,
          Or.inl (by omega), ?_⟩
        · simp [csReadByte, hmod]
        · simp only [List.tail_cons]
          unfold cffReadCharStringNumber
          rw [if_neg (by omega), if_neg (by omega), if_pos (by omega)]
          simp [csReadByte, ht1]
      · refine ⟨b0, (-((b0 : Int) - 251) * 256 - (t1 : Int) - 108) * 65536, hb0, ?_,
          Or.inl (by omega), ?_⟩
        · simp [csReadByte, hmod]
        · simp only [List.tail_cons]
          unfold cffReadCharStringNumber
          rw [if_neg (by omega), if_neg (by omega), if_neg (by omega), if_pos (by omega)]
          simp [csReadByte, ht1]
    · subst h255
      rcases t with _ | ⟨c0, t⟩
      · simp at ht
      rcases t with _ | ⟨c1, t⟩
      · simp at ht
      rcases t with _ | ⟨c2, t⟩
      · simp at ht
      rcases t with _ | ⟨c3, t⟩
      · simp at ht
      have ht' : t = [] := by
        have : t.length = 0 := by simpa using ht
        simpa [List.length_eq_zero] using this
      subst ht'
      exact ⟨255, _, hb0, by simp [csReadByte], Or.inl (by omega), rfl⟩

/-- One interpreter step over a number chunk: the chunk's value is pushed and
the chunk consumed, for any stack under the CFF1 48-operand limit. -/
theorem csRun_num_step {σ : Type} (cff : CffTable) (glyphID : Nat) (cb : CB σ)
    (hver : cff.version = 1) (fuel : Nat) (c rest : List Nat) (b0 : Nat) (v : Int)
    (h1 : csReadByte (c ++ rest) = (b0, c.tail ++ rest))
    (h2 : 32 ≤ b0 ∨ b0 = 28)
    (h3 : cffReadCharStringNumber (c.tail ++ rest) (b0 : Int) = (v, rest))
    (hcne : c ≠ []) (CS : List (List Nat)) (s : List Int) (hs : s.length < 48)
    (hints : Nat) (bm : Bool) (cbSt : σ) :
    csRun cff glyphID cb (fuel + 1) ⟨c ++ rest, CS, s, hints, bm, cbSt⟩ =
      csRun cff glyphID cb fuel ⟨rest, CS, s ++ [v], hints, bm, cbSt⟩ := by
  have hc0 : 0 < c.length := List.length_pos.mpr hcne
  have hr : ¬((c ++ rest : List Nat).length = 0) := by
    rw [List.length_append]; omega
  simp only [csRun]
  try dsimp only
  rw [hver]
  rw [if_neg (by simp), if_neg hr, h1]
  try dsimp only
  rw [if_pos h2, h3]
  try dsimp only
  rw [if_neg (by rintro (⟨-, h⟩ | ⟨h, -⟩) <;> omega)]

/-- One interpreter step over an operator byte below 32 (other than the
escape byte 12 and the short-int byte 28): if the width-elision block agrees
on two operand stacks, the whole interpreter agrees from them. -/
theorem csRun_clearing_step {σ : Type} (cff : CffTable) (glyphID : Nat) (cb : CB σ)
    (fuel : Nat) (op : Nat) (t : List Nat) (hlt : op < 32) (h28 : op ≠ 28)
    (h12 : op ≠ 12) (CS : List (List Nat)) (s1 s2 : List Int) (hints : Nat)
    (bm : Bool) (cbSt : σ)
    (hw : csWidth cff.version bm (op : Int) s1 = csWidth cff.version bm (op : Int) s2) :
    csRun cff glyphID cb (fuel + 1) ⟨op :: t, CS, s1, hints, bm, cbSt⟩ =
      csRun cff glyphID cb (fuel + 1) ⟨op :: t, CS, s2, hints, bm, cbSt⟩ := by
  have hmod : op % 256 = op := Nat.mod_eq_of_lt (by omega)
  have h0 : ¬(cff.version = 2 ∧ (op :: t : List Nat).length = 0 ∧ 0 < CS.length) := by
    simp
  have hne : ¬((op :: t : List Nat).length = 0) := by simp
  have hnum : ¬(32 ≤ op ∨ op = 28) := by omega
  simp only [csRun]
  try dsimp only
  rw [if_neg h0, if_neg h0, if_neg hne, if_neg hne]
  simp only [csReadByte]
  try dsimp only
  rw [hmod]
  rw [if_neg hnum, if_neg hnum, if_neg h12]
  try dsimp only
  rw [hw]

/-- The width-elision block drops a leading operand exactly when the operand
count including it has the claimed parity, agreeing with the run that never
had the leading operand. -/
theorem csWidth_drop (op : Nat)
    (hop : op = 1 ∨ op = 3 ∨ op = 4 ∨ op = 14 ∨ op = 18 ∨ op = 19 ∨ op = 20 ∨
      op = 21 ∨ op = 22 ∨ op = 23)
    (w : Int) (s : List Int)
    (hpar : if op = 22 ∨ op = 4 then (1 + s.length) % 2 = 0
      else (1 + s.length) % 2 = 1) :
    csWidth 1 true (op : Int) (w :: s) = csWidth 1 true (op : Int) s := by
  rcases hop with rfl | rfl | rfl | rfl | rfl | rfl | rfl | rfl | rfl | rfl <;>
    norm_num at hpar <;>
    simp only [csWidth, List.length_cons] <;>
    norm_num <;>
    rw [if_pos (by omega), if_neg (by omega)]

/-- The width-elision bisimulation: with `chunks` number chunks still to push
before a stack-clearing operator `op` of the claimed parity, the run whose
stack carries one extra leading operand `w` coincides with the run without
it. -/
theorem csRun_width_bisim {σ : Type} (cff : CffTable) (glyphID : Nat) (cb : CB σ)
    (hver : cff.version = 1) (chunks : List (List Nat)) :
    ∀ (fuel : Nat) (w : Int) (s : List Int) (op : Nat) (t : List Nat)
      (CS : List (List Nat)) (hints : Nat) (cbSt : σ),
      chunks.all isNumChunk = true →
      1 + s.length + chunks.length ≤ 48 →
      (op = 1 ∨ op = 3 ∨ op = 4 ∨ op = 14 ∨ op = 18 ∨ op = 19 ∨ op = 20 ∨
        op = 21 ∨ op = 22 ∨ op = 23) →
      (if op = 22 ∨ op = 4 then (1 + s.length + chunks.length) % 2 = 0
        else (1 + s.length + chunks.length) % 2 = 1) →
      csRun cff glyphID cb fuel
          ⟨chunks.flatten ++ op :: t, CS, w :: s, hints, true, cbSt⟩ =
        csRun cff glyphID cb fuel
          ⟨chunks.flatten ++ op :: t, CS, s, hints, true, cbSt⟩ := by
  induction chunks with
  | nil =>
    intro fuel w s op t CS hints cbSt _ hlen hop hpar
    match fuel with
    | 0 => rfl
    | fuel + 1 =>
      have hops : op < 32 ∧ op ≠ 28 ∧ op ≠ 12 := by
        rcases hop with rfl | rfl | rfl | rfl | rfl | rfl | rfl | rfl | rfl | rfl <;>
          exact ⟨by decide, by decide, by decide⟩
      simp only [List.flatten_nil, List.nil_append]
      apply csRun_clearing_step cff glyphID cb fuel op t hops.1 hops.2.1 hops.2.2
        CS (w :: s) s hints true cbSt
      rw [hver]
      have hpar' : if op = 22 ∨ op = 4 then (1 + s.length) % 2 = 0
          else (1 + s.length) % 2 = 1 := by
        simp only [List.length_nil, Nat.add_zero] at hpar
        exact hpar
      exact csWidth_drop op hop w s hpar'
  | cons c cs ih =>
    intro fuel w s op t CS hints cbSt hall hlen hop hpar
    simp only [List.all_cons, Bool.and_eq_true] at hall
    obtain ⟨hc, hcs⟩ := hall
    match fuel with
    | 0 => rfl
    | fuel + 1 =>
      obtain ⟨hcne, b0, v, hb0, h1, h2, h3⟩ := isNumChunk_read c (cs.flatten ++ op :: t) hc
      have hflat : (c :: cs).flatten ++ op :: t = c ++ (cs.flatten ++ op :: t) := by
        simp [List.flatten_cons, List.append_assoc]
      rw [hflat]
      simp only [List.length_cons] at hlen hpar
      rw [csRun_num_step cff glyphID cb hver fuel c (cs.flatten ++ op :: t) b0 v h1 h2 h3
        hcne CS (w :: s) (by simp only [List.length_cons]; omega) hints true cbSt]
      rw [csRun_num_step cff glyphID cb hver fuel c (cs.flatten ++ op :: t) b0 v h1 h2 h3
        hcne CS s (by omega) hints true cbSt]
      rw [show (w :: s) ++ [v] = w :: (s ++ [v]) from rfl]
      apply ih fuel w (s ++ [v]) op t CS hints cbSt hcs
        (by simp only [List.length_append, List.length_cons, List.length_nil]; omega) hop
      split_ifs at hpar ⊢ <;>
        simp only [List.length_append, List.length_cons, List.length_nil] at hpar ⊢ <;>
        omega

/-- C5: corrected.  For a CFF1 CharString that begins with a width number
chunk `wenc`, followed by further number chunks and a first stack-clearing
operator of the claimed parity (odd operand count including the width;
even for `hmoveto`/`vmoveto`), the interpreter with the `ToPath` callback
reaches the same state — in particular it emits the same Pather-call trace —
as on the CharString with `wenc` removed, PROVIDED the operand count
including the width stays within the 48-slot CFF1 stack (the counterexample
shows the equivalence fails at 49 operands, where only the width-carrying
run overflows the stack). -/
theorem cffToPath_width_elision (cff : CffTable) (glyphID : Nat)
    (hver : cff.version = 1) (wenc : List Nat) (hw : isNumChunk wenc = true)
    (chunks : List (List Nat)) (hchunks : chunks.all isNumChunk = true)
    (op : Nat)
    (hop : op = 1 ∨ op = 3 ∨ op = 4 ∨ op = 14 ∨ op = 18 ∨ op = 19 ∨ op = 20 ∨
      op = 21 ∨ op = 22 ∨ op = 23)
    (t : List Nat) (fuel : Nat) (ps : PathState)
    (hlen : 1 + chunks.length ≤ 48)
    (hpar : if op = 22 ∨ op = 4 then (1 + chunks.length) % 2 = 0
      else (1 + chunks.length) % 2 = 1) :
    csRun cff glyphID toPathCB (fuel + 1)
        ⟨wenc ++ (chunks.flatten ++ op :: t), [], [], 0, true, ps⟩ =
      csRun cff glyphID toPathCB fuel
        ⟨chunks.flatten ++ op :: t, [], [], 0, true, ps⟩ ∧
    (csRun cff glyphID toPathCB (fuel + 1)
        ⟨wenc ++ (chunks.flatten ++ op :: t), [], [], 0, true, ps⟩).1.trace =
      (csRun cff glyphID toPathCB fuel
        ⟨chunks.flatten ++ op :: t, [], [], 0, true, ps⟩).1.trace := by
  obtain ⟨hcne, b0, v, hb0, h1, h2, h3⟩ :=
    isNumChunk_read wenc (chunks.flatten ++ op :: t) hw
  rw [csRun_num_step cff glyphID toPathCB hver fuel wenc (chunks.flatten ++ op :: t)
    b0 v h1 h2 h3 hcne [] [] (by decide) 0 true ps]
  simp only [List.nil_append]
  have hb := csRun_width_bisim cff glyphID toPathCB hver chunks fuel v [] op t [] 0 ps
    hchunks (by simpa using hlen) hop
    (by split_ifs at hpar ⊢ <;> simpa using hpar)
  exact ⟨hb, by rw [hb]⟩

/-- Witness for C5: width 0 (byte 139) before two operands and `rmoveto`
parses to the same interpreter state and trace as without the width byte. -/
theorem cffToPath_width_elision_witness :
    csRun cffC5 0 toPathCB 11
        ⟨[139] ++ ([[150], [150]].flatten ++ 21 :: [14]), [], [], 0, true, ⟨0, 0, []⟩⟩ =
      csRun cffC5 0 toPathCB 10
        ⟨[[150], [150]].flatten ++ 21 :: [14], [], [], 0, true, ⟨0, 0, []⟩⟩ ∧
    (csRun cffC5 0 toPathCB 11
        ⟨[139] ++ ([[150], [150]].flatten ++ 21 :: [14]), [], [], 0, true,
          ⟨0, 0, []⟩⟩).1.trace =
      (csRun cffC5 0 toPathCB 10
        ⟨[[150], [150]].flatten ++ 21 :: [14], [], [], 0, true, ⟨0, 0, []⟩⟩).1.trace :=
  cffToPath_width_elision cffC5 0 rfl [139] (by decide) [[150], [150]] (by decide) 21
    (by decide) [14] 10 ⟨0, 0, []⟩ (by decide) (by decide)

/-- C5 counterexample: prepending a width operand to a CharString whose
first stack-clearing operator (`hstem`) carries 49 operands — an odd count,
as the claim's premise demands — makes the width-carrying run overflow the
48-operand CFF1 stack and fail with no Pather calls, while the run without
the width completes and emits a path: the two runs do not produce the same
Pather calls. -/
theorem cffToPath_width_elision_counterexample :
    (csRun cffC5 0 toPathCB 60 ⟨139 :: c5Body, [], [], 0, true, ⟨0, 0, []⟩⟩).2 =
        CSOutcome.failed CffErr.tooManyOperands ∧
      (csRun cffC5 0 toPathCB 60 ⟨139 :: c5Body, [], [], 0, true, ⟨0, 0, []⟩⟩).1.trace
          = [] ∧
      (csRun cffC5 0 toPathCB 60 ⟨c5Body, [], [], 0, true, ⟨0, 0, []⟩⟩).2 =
        CSOutcome.done ∧
      (csRun cffC5 0 toPathCB 60 ⟨c5Body, [], [], 0, true, ⟨0, 0, []⟩⟩).1.trace ≠ [] := by
  refine ⟨by decide, by decide, by decide, by decide⟩

end Font
